import Mathlib

/-!
Shallow embedding of `py/desitarget/mtl.py` (merged target lists).

Tables are modelled as lists of rows.  A primary-target row is a total
function from column names to integer values (`Row`); the list `cols`
records which column names are actually present, and code only ever
reads columns that are present.  A redshift-catalog (zcat) row maps
column names to `Option Int`, where `none` models a masked entry or an
absent column (`ZRow`).

The external rule evaluators `calc_numobs_more`, `calc_priority` and
`set_obsconditions` (from `desitarget.targets`) are out of scope of the
module under study, so `make_mtl` is parameterized by them.
-/

/-- A row of a primary-target table: column name to value. -/
abbrev Row := String → Int

/-- Default row used for out-of-range list access (never observable in
the modelled control flow, where indices are in range). -/
def zeroRow : Row := fun _ => 0

/-- Functional update of one column of a row. -/
def rowSet (r : Row) (c : String) (v : Int) : Row :=
  fun c2 => if c2 = c then v else r c2

/-- A numpy rec array / astropy Table of primary targets. -/
structure Catalog where
  cols : List String
  rows : List Row

/-- The empty catalog. -/
def emptyCatalog : Catalog := { cols := [], rows := [] }

/-- A row of a redshift catalog; `none` models a masked entry or an
absent column. -/
abbrev ZRow := String → Option Int

/-- Default zcat row for out-of-range access. -/
def noneZRow : ZRow := fun _ => none

/-- Functional update of one column of a zcat row. -/
def zrowSet (r : ZRow) (c : String) (v : Option Int) : ZRow :=
  fun c2 => if c2 = c then v else r c2

/-- A (possibly masked) astropy Table holding a redshift catalog. -/
structure ZCat where
  cols : List String
  masked : Bool
  rows : List ZRow

/-- The empty zcat. -/
def emptyZCat : ZCat := { cols := [], masked := false, rows := [] }

/-- Column extraction `t[c]` as a list of values. -/
def getCol (t : Catalog) (c : String) : List Int :=
  t.rows.map (fun r => r c)

/-- Whole-column assignment `t[c] = vs` (adds the column when absent,
as astropy does).  Mirrors numpy semantics where `vs` has the same
length as the table. -/
def setCol (t : Catalog) (c : String) (vs : List Int) : Catalog :=
  { cols := if c ∈ t.cols then t.cols else t.cols ++ [c],
    rows := List.zipWith (fun r v => rowSet r c v) t.rows vs }

/-- Whole-column assignment on a zcat, `z[c] = vs`. -/
def setColZ (z : ZCat) (c : String) (vs : List Int) : ZCat :=
  { z with cols := if c ∈ z.cols then z.cols else z.cols ++ [c],
           rows := List.zipWith (fun r v => zrowSet r c (some v)) z.rows vs }

/-- Fancy-indexed column assignment `t[c][idxs] = vals`, given as
index/value pairs; later writes win, as in numpy. -/
def scatterRows (rows : List Row) (c : String) (ivs : List (Nat × Int)) : List Row :=
  ivs.foldl (fun rs iv => rs.set iv.1 (rowSet (rs.getD iv.1 zeroRow) c iv.2)) rows

/-- `t[c][idxs] = vals` at the catalog level. -/
def scatterCol (t : Catalog) (c : String) (ivs : List (Nat × Int)) : Catalog :=
  { t with rows := scatterRows t.rows c ivs }

/-- Boolean-mask selection `xs[mask]`. -/
def maskSelect {α : Type} (xs : List α) (mask : List Bool) : List α :=
  (List.zip xs mask).filterMap (fun p => if p.2 then some p.1 else none)

/-- Boolean-mask assignment `xs[mask] = vals`: entries where the mask is
true are replaced by successive values of `vals`. -/
def maskAssign : List Int → List Bool → List Int → List Int
  | [], _, _ => []
  | x :: xs, false :: ms, vs => x :: maskAssign xs ms vs
  | _ :: xs, true :: ms, v :: vs => v :: maskAssign xs ms vs
  | x :: xs, true :: ms, [] => x :: maskAssign xs ms []
  | xs, [], _ => xs

/-- In-place column rename (mtl.py lines 137-144): the value formerly
reachable under `old` becomes reachable under `new`.  When `old` is not
a column this is the identity (the `except KeyError: pass` branch). -/
def renameCol (old new : String) (t : Catalog) : Catalog :=
  if old ∈ t.cols then
    { cols := t.cols.map (fun c => if c = old then new else c),
      rows := t.rows.map (fun r => fun c => if c = new then r old else r c) }
  else t

/-- Both renames of mtl.py lines 137-144, in source order
(`NUMOBS` then `PRIORITY`). -/
def renamed (t : Catalog) : Catalog :=
  renameCol "PRIORITY" "PRIORITY_INIT" (renameCol "NUMOBS" "NUMOBS_INIT" t)

/-- The TARGETID column of a catalog. -/
def mkTids (t : Catalog) : List Int :=
  t.rows.map (fun r => r "TARGETID")

/-- Secondary padding (mtl.py lines 110-121): a zero-filled block with
the target catalog's layout and `len(scnd)` rows, shared columns copied
from the secondary catalog, concatenated onto the targets.  The boolean
mask is `is_scnd = np.repeat(False, len(targets)); is_scnd[-nrows:] = True`
(lines 120-121): when `nrows = 0` the Python slice `[-0:]` covers the
whole array, so every row - including every original row - is marked
secondary-origin. -/
def padTargets (targets : Catalog) (sc : Catalog) : Catalog × List Bool :=
  let nrows := sc.rows.length
  let shared := targets.cols.filter (fun c => c ∈ sc.cols)
  let padit : List Row := sc.rows.map (fun sr => fun c => if c ∈ shared then sr c else 0)
  ({ targets with rows := targets.rows ++ padit },
   if nrows = 0 then List.replicate (targets.rows.length + nrows) true
   else List.replicate targets.rows.length false ++ List.replicate nrows true)

/-- The padded targets and secondary mask, or the targets unchanged when
no secondary catalog was passed (the mask is then unused). -/
def mkTargets1 (targets : Catalog) (scnd : Option Catalog) : Catalog × List Bool :=
  match scnd with
  | none => (targets, [])
  | some sc => padTargets targets sc

/-- zcat filtering (mtl.py lines 124-131): rows whose TARGETID is not in
the target catalog are dropped; the count of dropped rows is the number
the code reports via `log.warning`.  When nothing is dropped the original
object is kept (the code only rebinds `zcat` when `num_extra > 0`). -/
def mkZf (tids1 : List Int) (zcat : Option ZCat) : Option ZCat × Nat :=
  match zcat with
  | none => (none, 0)
  | some z =>
      let okrows := z.rows.filter (fun r => tids1.any (fun t => r "TARGETID" = some t))
      let numExtra := z.rows.length - okrows.length
      (some (if numExtra > 0 then { z with rows := okrows } else z), numExtra)

/-- Index of the last occurrence of `tid` in `tids`, mirroring
`d = dict(zip(targets["TARGETID"], np.arange(n)))` where later duplicate
keys overwrite earlier ones. -/
def lastIdx? : List Int → Option Int → Option Nat
  | [], _ => none
  | t :: ts, tid =>
      match lastIdx? ts tid with
      | some j => some (j + 1)
      | none => if some t = tid then some 0 else none

/-- Dictionary lookup `d[tid]` (mtl.py line 153); a missing key raises
`KeyError`, modelled as the error case. -/
def lookupLast (tids : List Int) (tid : Option Int) : Except String Nat :=
  match lastIdx? tids tid with
  | some i => Except.ok i
  | none => Except.error "KeyError: TARGETID not in targets"

/-- Sentinel-filling on a masked zcat (mtl.py lines 155-161): masked
NUMOBS entries become 0, masked Z and ZWARN entries become -1. -/
def fillMasked (z : ZCat) : ZCat :=
  if z.masked then
    { z with rows := z.rows.map (fun r =>
        zrowSet (zrowSet (zrowSet r "NUMOBS" (some ((r "NUMOBS").getD 0)))
            "Z" (some ((r "Z").getD (-1))))
          "ZWARN" (some ((r "ZWARN").getD (-1)))) }
  else z

/-- Synthesized observation state when no zcat was passed
(mtl.py lines 162-170): one row per target, NUMOBS 0, Z -1, ZWARN -1. -/
def synthZcat (targets : Catalog) : ZCat :=
  { cols := ["TARGETID", "NUMOBS", "Z", "ZWARN"], masked := false,
    rows := targets.rows.map (fun r => fun c =>
      if c = "TARGETID" then some (r "TARGETID")
      else if c = "NUMOBS" then some 0
      else if c = "Z" then some (-1)
      else if c = "ZWARN" then some (-1) else none) }

/-- The evaluation of `[d[tid] for tid in zcat["TARGETID"]]`
(mtl.py line 153): index lookups performed left to right, raising at the
first missing key. -/
def exceptMapM {α β : Type} (f : α → Except String β) : List α → Except String (List β)
  | [] => Except.ok []
  | a :: l =>
      match f a, exceptMapM f l with
      | Except.ok b, Except.ok out => Except.ok (b :: out)
      | Except.error e, _ => Except.error e
      | Except.ok _, Except.error e => Except.error e

/-- The result of a `make_mtl` call.  Besides the returned table `mtl`,
the record keeps the post-call states of the caller's `targets` and
`zcat` objects (the code mutates them in place in some paths), the
internal secondary-origin mask, the count of dropped zcat rows reported
as a warning, and the internal alignment vector and evaluated priorities
(ghost observations used to state claims). -/
structure MtlOutcome where
  mtl : Catalog
  postTargets : Catalog
  postZcat : Option ZCat
  isScnd : List Bool
  numExtra : Nat
  zmatcher : List Nat
  priority : List Int

/-- The terminal-priority invariant (mtl.py lines 182-186): rows whose
evaluated priority is at most 2 get their NUMOBS_MORE forced to 0. -/
def zeroTerminal (priority : List Int) (z : ZCat) : ZCat :=
  { z with
    rows := List.zipWith (fun p r => if p ≤ 2 then zrowSet r "NUMOBS_MORE" (some 0) else r)
      priority z.rows }

/-- The OBSCONDITIONS column (mtl.py lines 188-194): computed for all
rows, then recomputed with `scnd=True` for the secondary-flagged rows
only when a secondary catalog was passed. -/
def mkObscon (soc : List Row → Bool → List Int) (targets2 : Catalog)
    (isScnd : List Bool) (scnd : Option Catalog) : List Int :=
  match scnd with
  | none => soc targets2.rows false
  | some _ =>
      maskAssign (soc targets2.rows false) isScnd (soc (maskSelect targets2.rows isScnd) true)

/-- Output assembly (mtl.py lines 196-206): NUMOBS_MORE and PRIORITY
are initialized from the *_INIT columns for all rows, OBSCONDITIONS is
set, and then only the rows selected by the alignment index vector are
overwritten with the evaluated results. -/
def assembleMtl (targets2 : Catalog) (obsconmask2 : List Int) (zmatcher : List Nat)
    (priority : List Int) (noms : List Int) : Catalog :=
  let mtl1 := setCol targets2 "NUMOBS_MORE" (getCol targets2 "NUMOBS_INIT")
  let mtl2 := setCol mtl1 "PRIORITY" (getCol mtl1 "PRIORITY_INIT")
  let mtl3 := setCol mtl2 "OBSCONDITIONS" obsconmask2
  let mtl4 := scatterCol mtl3 "PRIORITY" (zmatcher.zip priority)
  scatterCol mtl4 "NUMOBS_MORE" (zmatcher.zip noms)

/-- The trim step (mtl.py lines 208-214): when requested, drop every
row whose NUMOBS_MORE is not positive. -/
def applyTrim (trim : Bool) (t : Catalog) : Catalog :=
  if trim then { t with rows := t.rows.filter (fun r => decide (0 < r "NUMOBS_MORE")) } else t

/-- mtl.py lines 172-223: rule evaluation, the terminal-priority
invariant, obscondition masks, output assembly and the optional trim.
`targets` and `zcat` are the caller's original objects (needed to report
the post-call states); `targets2` is the padded-and-renamed catalog. -/
def make_mtl_tail (cnm cp : List Row → List ZRow → String → List Int)
    (soc : List Row → Bool → List Int) (obscon : String)
    (targets : Catalog) (zcat : Option ZCat) (scnd : Option Catalog) (trim : Bool)
    (targets2 : Catalog) (isScnd : List Bool) (numExtra : Nat)
    (ztargets : ZCat) (zmatcher : List Nat) : MtlOutcome :=
  let tzm := zmatcher.map (fun i => targets2.rows.getD i zeroRow)
  let ztargets2 := setColZ ztargets "NUMOBS_MORE" (cnm tzm ztargets.rows obscon)
  let priority := cp tzm ztargets2.rows obscon
  let ztargets3 := zeroTerminal priority ztargets2
  let obsconmask2 := mkObscon soc targets2 isScnd scnd
  let mtlF := applyTrim trim (assembleMtl targets2 obsconmask2 zmatcher priority
    (ztargets3.rows.map (fun r => (r "NUMOBS_MORE").getD 0)))
  { mtl := mtlF
    postTargets := if scnd.isSome then targets else targets2
    postZcat :=
      match zcat with
      | none => none
      | some z => some (if numExtra > 0 then z else ztargets3)
    isScnd := isScnd
    numExtra := numExtra
    zmatcher := zmatcher
    priority := priority }

/-- The default of the `trim` keyword in the source signature
(mtl.py line 63: `trim=False`). -/
def make_mtl_trim_default : Bool := false

/-- `make_mtl(targets, obscon, zcat, trim, scnd)` (mtl.py lines 63-223),
parameterized by the external evaluators `cnm` (= `calc_numobs_more`),
`cp` (= `calc_priority`) and `soc` (= `set_obsconditions`). -/
def make_mtl (cnm cp : List Row → List ZRow → String → List Int)
    (soc : List Row → Bool → List Int)
    (targets : Catalog) (obscon : String)
    (zcat : Option ZCat) (trim : Bool) (scnd : Option Catalog) :
    Except String MtlOutcome :=
  let p := mkTargets1 targets scnd
  let q := mkZf (mkTids p.1) zcat
  let targets2 := renamed p.1
  match q.1 with
  | some z1 =>
      (exceptMapM (fun r => lookupLast (mkTids targets2) (r "TARGETID")) z1.rows).map
        (fun zm => make_mtl_tail cnm cp soc obscon targets zcat scnd trim
          targets2 p.2 q.2 (fillMasked z1) zm)
  | none =>
      Except.ok (make_mtl_tail cnm cp soc obscon targets zcat scnd trim
        targets2 p.2 q.2 (synthZcat targets2) (List.range targets2.rows.length))

/-! Observers on `make_mtl` results, used to state the claims without
binding the outcome record. -/

/-- Whether the call completed without raising. -/
def exOk : Except String MtlOutcome → Bool
  | Except.ok _ => true
  | Except.error _ => false

/-- The returned MTL table (junk on error). -/
def outMtl : Except String MtlOutcome → Catalog
  | Except.ok o => o.mtl
  | Except.error _ => emptyCatalog

/-- Post-call state of the caller's `targets` object. -/
def outPostTargets : Except String MtlOutcome → Catalog
  | Except.ok o => o.postTargets
  | Except.error _ => emptyCatalog

/-- Post-call state of the caller's `zcat` object. -/
def outPostZcat : Except String MtlOutcome → Option ZCat
  | Except.ok o => o.postZcat
  | Except.error _ => none

/-- The dropped-zcat-row count reported via `log.warning`. -/
def outNumExtra : Except String MtlOutcome → Nat
  | Except.ok o => o.numExtra
  | Except.error _ => 0

/-- The internal alignment index vector. -/
def outZmatcher : Except String MtlOutcome → List Nat
  | Except.ok o => o.zmatcher
  | Except.error _ => []

/-- The priorities returned by the external evaluator. -/
def outPriority : Except String MtlOutcome → List Int
  | Except.ok o => o.priority
  | Except.error _ => []

/-- The internal secondary-origin mask. -/
def outIsScnd : Except String MtlOutcome → List Bool
  | Except.ok o => o.isScnd
  | Except.error _ => []

/-! The ledger materializer (`make_ledger_in_hp`, mtl.py lines 225-286,
and `make_ledger`, lines 288-351).  Reading targets and headers from
disk is an external collaborator, so the functions are parameterized by
what was read; the bitmask metadata used by the state classifier is
parameterized likewise. -/

/-- One flavor group of bitmask metadata (an `Mx` in mtl.py line 269):
the canonical enumeration order of its bitnames and, per bitname, the
`priorities["UNOBS"]` value; `none` models the looked-up attribute being
missing, which the source swallows with `except: pass`. -/
structure BitMask where
  names : List String
  unobs : String → Option Int

/-- The canonical enumeration of (bitname, UNOBS priority) pairs across
the applicable flavor groups, in source order (mtl.py lines 269-277). -/
def enumBits (Mxs : List BitMask) : List (String × Int) :=
  (Mxs.map (fun M => M.names.filterMap (fun b => (M.unobs b).map (fun p => (b, p))))).flatten

/-- The insertion-ordered priority-to-bitname pairs of mtl.py lines
268-278: a bitname is recorded only when its priority value was not seen
before (first-seen-wins). -/
def buildPrioPairs (Mxs : List BitMask) : List (Int × String) :=
  (enumBits Mxs).foldl
    (fun acc bp => if acc.any (fun q => q.1 = bp.2) then acc else acc ++ [(bp.2, bp.1)])
    []

/-- Python-dict assignment `d[k] = v`: overwrites in place when the key
exists, otherwise appends (insertion order preserved). -/
def dictSet (d : List (Int × String)) (k : Int) (v : String) : List (Int × String) :=
  if d.any (fun q => q.1 = k) then d.map (fun q => if q.1 = k then (k, v) else q)
  else d ++ [(k, v)]

/-- Python-dict lookup `d.get(k)`: the value of the first (and, for
dictionaries, only) entry whose key is `k`. -/
def dictLookup : List (Int × String) → Int → Option String
  | [], _ => none
  | q :: d, k => if q.1 = k then some q.2 else dictLookup d k

/-- `priodict` of mtl.py lines 278-280: the first-seen-wins table with
priority 0 forced to the CALIBRATION label. -/
def priodict (Mxs : List BitMask) : List (Int × String) :=
  dictSet (buildPrioPairs Mxs) 0 "CALIBRATION"

/-- The TARGET_STATE assignment loop of mtl.py lines 281-284: start from
the NOSTATE placeholder and, for each table entry in insertion order,
overwrite the state of the rows whose PRIORITY_INIT equals the entry's
priority. -/
def assignStates (d : List (Int × String)) (prioInit : List Int) : List String :=
  d.foldl
    (fun states pv => List.zipWith (fun st p => if p = pv.1 then pv.2 else st) states prioInit)
    (List.replicate prioInit.length "NOSTATE")

/-- The in-memory ledger table of mtl.py lines 255-284: the reconciled
MTL plus a TIMESTAMP column and a TARGET_STATE column. -/
structure LedgerTable where
  base : Catalog
  timestamp : List String
  targetState : List String

/-- The empty ledger table. -/
def emptyLedgerTable : LedgerTable := { base := emptyCatalog, timestamp := [], targetState := [] }

/-- The ledger table of mtl.py lines 255-284.  Only the `base` field is
reachable when the source runs: it is the table of the `make_mtl` call
at line 256, which executes.  Line 259 then evaluates
`datetime.utcnow()` although `datetime` is never imported by the module,
raising a NameError on every call, so the TIMESTAMP stamping (line 259)
and the TARGET_STATE annotation (lines 263-284) never execute.  The
`timestamp` and `targetState` fields translate those unreachable source
lines as written (the never-computed clock string is the parameter
`ts`), matching the spec's "stamp every row with the current timestamp
... and annotate every row via StateClassifier". -/
def buildLedgerTable (cnm cp : List Row → List ZRow → String → List Int)
    (soc : List Row → Bool → List Int) (Mxs : List BitMask) (ts : String)
    (targs : Catalog) (obscon : String) : LedgerTable :=
  match make_mtl cnm cp soc targs obscon none make_mtl_trim_default none with
  | Except.error _ => emptyLedgerTable
    -- unreachable: with no zcat, `make_mtl` performs no dictionary lookup
  | Except.ok out =>
      { base := out.mtl,
        timestamp := List.replicate out.mtl.rows.length ts,
        targetState := assignStates (priodict Mxs) (getCol out.mtl "PRIORITY_INIT") }

/-- `make_ledger_in_hp` (mtl.py lines 225-286) as it actually executes:
the `make_mtl` call at line 256 runs (its table is `buildLedgerTable`'s
`base` field), and then line 259 evaluates `datetime.utcnow()` with
`datetime` never imported, so every call raises a NameError.  The rest
of the body - the stamping, the state annotation and the bare `return`
at line 286 - is unreachable. -/
def make_ledger_in_hp (cnm cp : List Row → List ZRow → String → List Int)
    (soc : List Row → Bool → List Int)
    (targs : Catalog) (obscon : String) : Except String (Option LedgerTable) :=
  let _mtl := outMtl (make_mtl cnm cp soc targs obscon none make_mtl_trim_default none)
  Except.error "NameError: name datetime is not defined"

/-- `sub in s` on Python strings: `sub` occurs contiguously in `s`. -/
def leadsWith : List Char → List Char → Bool
  | [], _ => true
  | _ :: _, [] => false
  | a :: as, b :: bs => a == b && leadsWith as bs

/-- Auxiliary for `pyIn`: `sub` occurs in `s` starting at some offset. -/
def containsSub (sub : List Char) : List Char → Bool
  | [] => leadsWith sub []
  | s@(_ :: rest) => leadsWith sub s || containsSub sub rest

/-- Python substring containment `sub in s`. -/
def pyIn (sub s : String) : Bool := containsSub sub.toList s.toList

/-- The header metadata `make_ledger` reads from the target source:
the declared OBSCON string and the FILENSID HEALPixel nside. -/
structure Header where
  obscon : String
  filensid : Nat

/-- `make_ledger` (mtl.py lines 288-351), serial path (`numproc=1`).
The requested obscon is checked against the header's OBSCON string
before any pixel is touched; a mismatch aborts the whole run with no
per-pixel work (lines 311-315).  On the success path the source's
per-pixel loop calls a misspelled function name, which raises a
NameError at the first pixel, so pixel work never completes unless
there are no pixels at all. -/
def make_ledger (hdr : Header) (obscon : String) :
    Except String (List (Option LedgerTable)) :=
  if pyIn obscon hdr.obscon = false then
    Except.error ("File is type " ++ hdr.obscon ++ " but requested behavior is " ++ obscon)
  else
    let npixels := 12 * hdr.filensid * hdr.filensid
    if 0 < npixels then
      Except.error "NameError: name _make_bright_star_mx is not defined"
    else
      Except.ok []

/-! Concrete instances used by witnesses and counterexamples. -/

/-- A length-preserving stand-in for `calc_numobs_more` that returns a
nonzero count for every aligned row. -/
def cnm0 : List Row → List ZRow → String → List Int :=
  fun _ zs _ => zs.map (fun _ => 5)

/-- A length-preserving stand-in for `calc_priority` that returns the
terminal value 1 (OBS) for every aligned row. -/
def cp0 : List Row → List ZRow → String → List Int :=
  fun _ zs _ => zs.map (fun _ => 1)

/-- A length-preserving stand-in for `calc_priority` that returns a
non-terminal priority for every aligned row. -/
def cpHi : List Row → List ZRow → String → List Int :=
  fun _ zs _ => zs.map (fun _ => 3000)

/-- A length-preserving stand-in for `set_obsconditions`. -/
def soc0 : List Row → Bool → List Int :=
  fun rs _ => rs.map (fun _ => 3)

/-- A concrete target row. -/
def mkTRow (tid prioInit nobsInit : Int) : Row :=
  fun c => if c = "TARGETID" then tid
    else if c = "DESI_TARGET" then 4
    else if c = "PRIORITY_INIT" then prioInit
    else if c = "NUMOBS_INIT" then nobsInit
    else 0

/-- A two-row target catalog with TARGETIDs 1 and 2. -/
def T0 : Catalog :=
  { cols := ["TARGETID", "DESI_TARGET", "PRIORITY_INIT", "NUMOBS_INIT"],
    rows := [mkTRow 1 100 1, mkTRow 2 200 2] }

/-- A concrete zcat row. -/
def mkZRow (tid nobs z zwarn : Int) : ZRow :=
  fun c => if c = "TARGETID" then some tid
    else if c = "NUMOBS" then some nobs
    else if c = "Z" then some z
    else if c = "ZWARN" then some zwarn
    else none

/-- A zcat whose single row matches TARGETID 1. -/
def Z1 : ZCat := { cols := ["TARGETID", "NUMOBS", "Z", "ZWARN"], masked := false,
                   rows := [mkZRow 1 1 7 0] }


/-! List lemmas about the table-manipulation primitives. -/

theorem getD_zipWith {α β γ : Type} (f : α → β → γ) (xs : List α) (ys : List β)
    (j : Nat) (dx : α) (dy : β) (dz : γ) (hx : j < xs.length) (hy : j < ys.length) :
    (List.zipWith f xs ys).getD j dz = f (xs.getD j dx) (ys.getD j dy) := by
  induction xs generalizing ys j with
  | nil => simp at hx
  | cons x xs ih =>
    cases ys with
    | nil => simp at hy
    | cons y ys =>
      cases j with
      | zero => rfl
      | succ j =>
        simp only [List.zipWith_cons_cons, List.getD_cons_succ]
        exact ih ys j (Nat.lt_of_succ_lt_succ hx) (Nat.lt_of_succ_lt_succ hy)

theorem getD_map {α β : Type} (f : α → β) (l : List α) (j : Nat) (da : α) (db : β)
    (h : j < l.length) : (l.map f).getD j db = f (l.getD j da) := by
  induction l generalizing j with
  | nil => simp at h
  | cons x xs ih =>
    cases j with
    | zero => rfl
    | succ j =>
      simp only [List.map_cons, List.getD_cons_succ]
      exact ih j (Nat.lt_of_succ_lt_succ h)

theorem getD_set_self {α : Type} (l : List α) (i : Nat) (a d : α) (h : i < l.length) :
    (l.set i a).getD i d = a := by
  induction l generalizing i with
  | nil => simp at h
  | cons x xs ih =>
    cases i with
    | zero => rfl
    | succ i =>
      simp only [List.set_cons_succ, List.getD_cons_succ]
      exact ih i (Nat.lt_of_succ_lt_succ h)

theorem getD_set_ne {α : Type} (l : List α) (i j : Nat) (a d : α) (h : i ≠ j) :
    (l.set i a).getD j d = l.getD j d := by
  induction l generalizing i j with
  | nil => rfl
  | cons x xs ih =>
    cases i with
    | zero =>
      cases j with
      | zero => exact absurd rfl h
      | succ j => rfl
    | succ i =>
      cases j with
      | zero => rfl
      | succ j =>
        simp only [List.set_cons_succ, List.getD_cons_succ]
        exact ih i j (fun e => h (by omega))

theorem getD_append_left {α : Type} (xs ys : List α) (j : Nat) (d : α) (h : j < xs.length) :
    (xs ++ ys).getD j d = xs.getD j d := by
  induction xs generalizing j with
  | nil => simp at h
  | cons x l ih =>
    cases j with
    | zero => rfl
    | succ j =>
      simp only [List.cons_append, List.getD_cons_succ]
      exact ih j (Nat.lt_of_succ_lt_succ h)

theorem getD_append_right {α : Type} (xs ys : List α) (i : Nat) (d : α) :
    (xs ++ ys).getD (xs.length + i) d = ys.getD i d := by
  induction xs with
  | nil => simp
  | cons x l ih =>
    simpa only [List.cons_append, List.length_cons, Nat.succ_add, List.getD_cons_succ] using ih

theorem getD_zip {α β : Type} (xs : List α) (ys : List β) (k : Nat) (dx : α) (dy : β)
    (hx : k < xs.length) (hy : k < ys.length) :
    (xs.zip ys).getD k (dx, dy) = (xs.getD k dx, ys.getD k dy) := by
  simpa using getD_zipWith Prod.mk xs ys k dx dy (dx, dy) hx hy

theorem getD_replicate {α : Type} (n j : Nat) (a d : α) (h : j < n) :
    (List.replicate n a).getD j d = a := by
  induction n generalizing j with
  | zero => simp at h
  | succ n ih =>
    cases j with
    | zero => rfl
    | succ j =>
      simp only [List.replicate_succ, List.getD_cons_succ]
      exact ih j (Nat.lt_of_succ_lt_succ h)

theorem scatterRows_cons (rows : List Row) (c : String) (iv : Nat × Int)
    (ivs : List (Nat × Int)) :
    scatterRows rows c (iv :: ivs)
      = scatterRows (rows.set iv.1 (rowSet (rows.getD iv.1 zeroRow) c iv.2)) c ivs := rfl

theorem scatterRows_length (c : String) :
    ∀ (ivs : List (Nat × Int)) (rows : List Row),
      (scatterRows rows c ivs).length = rows.length := by
  intro ivs
  induction ivs with
  | nil => intro rows; rfl
  | cons iv ivs ih =>
    intro rows
    rw [scatterRows_cons, ih, List.length_set]

theorem scatterRows_getD_notMem (c : String) :
    ∀ (ivs : List (Nat × Int)) (rows : List Row) (j : Nat),
      j ∉ ivs.map Prod.fst →
      (scatterRows rows c ivs).getD j zeroRow = rows.getD j zeroRow := by
  intro ivs
  induction ivs with
  | nil => intro rows j _; rfl
  | cons iv ivs ih =>
    intro rows j hj
    simp only [List.map_cons, List.mem_cons, not_or] at hj
    rw [scatterRows_cons, ih _ j hj.2, getD_set_ne _ _ _ _ _ (fun e => hj.1 e.symm)]

theorem scatterRows_hit (c : String) :
    ∀ (ivs : List (Nat × Int)) (rows : List Row) (k : Nat),
      (ivs.map Prod.fst).Nodup → k < ivs.length →
      (ivs.getD k (0, 0)).1 < rows.length →
      ((scatterRows rows c ivs).getD (ivs.getD k (0, 0)).1 zeroRow) c = (ivs.getD k (0, 0)).2 := by
  intro ivs
  induction ivs with
  | nil => intro rows k _ hk; simp at hk
  | cons iv ivs ih =>
    intro rows k hnd hk hlt
    simp only [List.map_cons, List.nodup_cons] at hnd
    cases k with
    | zero =>
      simp only [List.getD_cons_zero] at hlt ⊢
      rw [scatterRows_cons, scatterRows_getD_notMem c ivs _ iv.1 hnd.1,
        getD_set_self _ _ _ _ hlt, rowSet]
      simp
    | succ k =>
      simp only [List.getD_cons_succ] at hlt ⊢
      rw [scatterRows_cons]
      exact ih _ k hnd.2 (Nat.lt_of_succ_lt_succ hk) (by rwa [List.length_set])

theorem maskAssign_length :
    ∀ (xs : List Int) (ms : List Bool) (vs : List Int),
      (maskAssign xs ms vs).length = xs.length := by
  intro xs
  induction xs with
  | nil => intro ms vs; cases ms <;> rfl
  | cons x xs ih =>
    intro ms vs
    cases ms with
    | nil => rfl
    | cons m ms =>
      cases m with
      | false => simpa [maskAssign] using ih ms vs
      | true =>
        cases vs with
        | nil => simpa [maskAssign] using ih ms []
        | cons v vs => simpa [maskAssign] using ih ms vs

/-! Lemmas about the TARGETID dictionary and the alignment vector. -/

theorem lastIdx?_none : ∀ (l : List Int), lastIdx? l none = none := by
  intro l
  induction l with
  | nil => rfl
  | cons t ts ih => simp [lastIdx?, ih]

theorem lastIdx?_lt :
    ∀ (l : List Int) (tid : Option Int) (i : Nat), lastIdx? l tid = some i → i < l.length := by
  intro l
  induction l with
  | nil => intro tid i h; simp [lastIdx?] at h
  | cons t ts ih =>
    intro tid i h
    simp only [lastIdx?] at h
    cases hrec : lastIdx? ts tid with
    | some j =>
      rw [hrec] at h
      cases h
      exact Nat.succ_lt_succ (ih tid j hrec)
    | none =>
      rw [hrec] at h
      by_cases he : some t = tid
      · rw [if_pos he] at h
        cases h
        exact Nat.succ_pos _
      · rw [if_neg he] at h
        cases h

theorem lastIdx?_getD :
    ∀ (l : List Int) (t : Int) (i : Nat), lastIdx? l (some t) = some i → l.getD i 0 = t := by
  intro l
  induction l with
  | nil => intro t i h; simp [lastIdx?] at h
  | cons x ts ih =>
    intro t i h
    simp only [lastIdx?] at h
    cases hrec : lastIdx? ts (some t) with
    | some j =>
      rw [hrec] at h
      cases h
      exact ih t j hrec
    | none =>
      rw [hrec] at h
      by_cases he : some x = some t
      · rw [if_pos he] at h
        cases h
        simpa using he
      · rw [if_neg he] at h
        cases h

theorem lastIdx?_isSome_of_mem :
    ∀ (l : List Int) (t : Int), t ∈ l → ∃ i, lastIdx? l (some t) = some i := by
  intro l
  induction l with
  | nil => intro t h; simp at h
  | cons x ts ih =>
    intro t h
    simp only [lastIdx?]
    cases hrec : lastIdx? ts (some t) with
    | some j => exact ⟨j + 1, rfl⟩
    | none =>
      rcases List.mem_cons.mp h with he | hm
      · exact ⟨0, by rw [if_pos (by rw [he])]⟩
      · rcases ih t hm with ⟨j, hj⟩
        rw [hj] at hrec
        cases hrec

theorem lookupLast_ok_bounds (tids : List Int) (tid : Option Int) (i : Nat)
    (h : lookupLast tids tid = Except.ok i) : i < tids.length := by
  unfold lookupLast at h
  cases hl : lastIdx? tids tid with
  | some j => rw [hl] at h; cases h; exact lastIdx?_lt tids tid i hl
  | none => rw [hl] at h; cases h

theorem lookupLast_ok_some (tids : List Int) (tid : Option Int) (i : Nat)
    (h : lookupLast tids tid = Except.ok i) : tid = some (tids.getD i 0) := by
  unfold lookupLast at h
  cases htid : tid with
  | none => rw [htid, lastIdx?_none] at h; cases h
  | some t =>
    rw [htid] at h
    cases hl : lastIdx? tids (some t) with
    | some j =>
      rw [hl] at h
      cases h
      rw [lastIdx?_getD tids t i hl]
    | none => rw [hl] at h; cases h

theorem exceptMapM_ok_cons {α β : Type} (f : α → Except String β) (a : α) (l : List α)
    (out : List β) (h : exceptMapM f (a :: l) = Except.ok out) :
    ∃ b out2, f a = Except.ok b ∧ exceptMapM f l = Except.ok out2 ∧ out = b :: out2 := by
  cases hfa : f a with
  | error e => rw [exceptMapM, hfa] at h; cases exceptMapM f l <;> simp at h
  | ok b =>
    cases hml : exceptMapM f l with
    | error e => rw [exceptMapM, hfa, hml] at h; cases h
    | ok out2 =>
      rw [exceptMapM, hfa, hml] at h
      cases h
      exact ⟨b, out2, rfl, rfl, rfl⟩

theorem exceptMapM_ok_length {α β : Type} (f : α → Except String β) :
    ∀ (l : List α) (out : List β), exceptMapM f l = Except.ok out → out.length = l.length := by
  intro l
  induction l with
  | nil =>
    intro out h
    cases h
    rfl
  | cons a l ih =>
    intro out h
    rcases exceptMapM_ok_cons f a l out h with ⟨b, out2, _, hml, rfl⟩
    simp [ih out2 hml]

theorem exceptMapM_ok_getD {α β : Type} (f : α → Except String β) (da : α) (db : β) :
    ∀ (l : List α) (out : List β), exceptMapM f l = Except.ok out →
      ∀ k, k < l.length → f (l.getD k da) = Except.ok (out.getD k db) := by
  intro l
  induction l with
  | nil => intro out h k hk; simp at hk
  | cons a l ih =>
    intro out h k hk
    rcases exceptMapM_ok_cons f a l out h with ⟨b, out2, hfa, hml, rfl⟩
    cases k with
    | zero => simpa using hfa
    | succ k =>
      simp only [List.getD_cons_succ]
      exact ih out2 hml k (Nat.lt_of_succ_lt_succ hk)

theorem exceptMapM_ok_of_forall {α β : Type} (f : α → Except String β) :
    ∀ (l : List α), (∀ a ∈ l, ∃ b, f a = Except.ok b) →
      ∃ out, exceptMapM f l = Except.ok out := by
  intro l
  induction l with
  | nil => intro _; exact ⟨[], rfl⟩
  | cons a l ih =>
    intro h
    rcases h a (List.mem_cons_self a l) with ⟨b, hb⟩
    rcases ih (fun x hx => h x (List.mem_cons_of_mem a hx)) with ⟨out, hout⟩
    exact ⟨b :: out, by rw [exceptMapM, hb, hout]⟩

/-! Shape lemmas: how `make_mtl` decomposes into its pipeline pieces. -/

/-- The zcat-row predicate of mtl.py line 126: the row's TARGETID occurs
among the target TARGETIDs. -/
def zPred (tids1 : List Int) : ZRow → Bool :=
  fun r => tids1.any (fun t => r "TARGETID" = some t)

/-- The number of zcat rows dropped by the filtering of lines 124-131. -/
def numDropped (tids1 : List Int) (z : ZCat) : Nat :=
  z.rows.length - (z.rows.filter (zPred tids1)).length

/-- The zcat object used downstream of the filtering of lines 124-131. -/
def filteredZ (tids1 : List Int) (z : ZCat) : ZCat :=
  if numDropped tids1 z > 0 then { z with rows := z.rows.filter (zPred tids1) } else z

theorem mkZf_some (tids1 : List Int) (z : ZCat) :
    mkZf tids1 (some z) = (some (filteredZ tids1 z), numDropped tids1 z) := rfl

theorem make_mtl_none_eq (cnm cp : List Row → List ZRow → String → List Int)
    (soc : List Row → Bool → List Int) (targets : Catalog) (obscon : String)
    (trim : Bool) (scnd : Option Catalog) :
    make_mtl cnm cp soc targets obscon none trim scnd =
      Except.ok (make_mtl_tail cnm cp soc obscon targets none scnd trim
        (renamed (mkTargets1 targets scnd).1) (mkTargets1 targets scnd).2 0
        (synthZcat (renamed (mkTargets1 targets scnd).1))
        (List.range (renamed (mkTargets1 targets scnd).1).rows.length)) := rfl

theorem make_mtl_some_eq (cnm cp : List Row → List ZRow → String → List Int)
    (soc : List Row → Bool → List Int) (targets : Catalog) (obscon : String)
    (z : ZCat) (trim : Bool) (scnd : Option Catalog) :
    make_mtl cnm cp soc targets obscon (some z) trim scnd =
      (exceptMapM
        (fun r => lookupLast (mkTids (renamed (mkTargets1 targets scnd).1)) (r "TARGETID"))
        (filteredZ (mkTids (mkTargets1 targets scnd).1) z).rows).map
        (fun zm => make_mtl_tail cnm cp soc obscon targets (some z) scnd trim
          (renamed (mkTargets1 targets scnd).1) (mkTargets1 targets scnd).2
          (numDropped (mkTids (mkTargets1 targets scnd).1) z)
          (fillMasked (filteredZ (mkTids (mkTargets1 targets scnd).1) z)) zm) := rfl

/-! Projection lemmas for `make_mtl_tail`. -/

theorem tail_zmatcher (cnm cp : List Row → List ZRow → String → List Int)
    (soc : List Row → Bool → List Int) (obscon : String)
    (targets : Catalog) (zcat : Option ZCat) (scnd : Option Catalog) (trim : Bool)
    (targets2 : Catalog) (isScnd : List Bool) (numExtra : Nat)
    (ztargets : ZCat) (zmatcher : List Nat) :
    (make_mtl_tail cnm cp soc obscon targets zcat scnd trim
      targets2 isScnd numExtra ztargets zmatcher).zmatcher = zmatcher := rfl

theorem tail_numExtra (cnm cp : List Row → List ZRow → String → List Int)
    (soc : List Row → Bool → List Int) (obscon : String)
    (targets : Catalog) (zcat : Option ZCat) (scnd : Option Catalog) (trim : Bool)
    (targets2 : Catalog) (isScnd : List Bool) (numExtra : Nat)
    (ztargets : ZCat) (zmatcher : List Nat) :
    (make_mtl_tail cnm cp soc obscon targets zcat scnd trim
      targets2 isScnd numExtra ztargets zmatcher).numExtra = numExtra := rfl

theorem tail_priority (cnm cp : List Row → List ZRow → String → List Int)
    (soc : List Row → Bool → List Int) (obscon : String)
    (targets : Catalog) (zcat : Option ZCat) (scnd : Option Catalog) (trim : Bool)
    (targets2 : Catalog) (isScnd : List Bool) (numExtra : Nat)
    (ztargets : ZCat) (zmatcher : List Nat) :
    (make_mtl_tail cnm cp soc obscon targets zcat scnd trim
      targets2 isScnd numExtra ztargets zmatcher).priority =
      cp (zmatcher.map (fun i => targets2.rows.getD i zeroRow))
        (setColZ ztargets "NUMOBS_MORE"
          (cnm (zmatcher.map (fun i => targets2.rows.getD i zeroRow)) ztargets.rows obscon)).rows
        obscon := rfl

theorem tail_mtl (cnm cp : List Row → List ZRow → String → List Int)
    (soc : List Row → Bool → List Int) (obscon : String)
    (targets : Catalog) (zcat : Option ZCat) (scnd : Option Catalog) (trim : Bool)
    (targets2 : Catalog) (isScnd : List Bool) (numExtra : Nat)
    (ztargets : ZCat) (zmatcher : List Nat) :
    (make_mtl_tail cnm cp soc obscon targets zcat scnd trim
      targets2 isScnd numExtra ztargets zmatcher).mtl =
      (let tzm := zmatcher.map (fun i => targets2.rows.getD i zeroRow)
       let ztargets2 := setColZ ztargets "NUMOBS_MORE" (cnm tzm ztargets.rows obscon)
       let priority := cp tzm ztargets2.rows obscon
       applyTrim trim (assembleMtl targets2 (mkObscon soc targets2 isScnd scnd) zmatcher priority
        ((zeroTerminal priority ztargets2).rows.map (fun r => (r "NUMOBS_MORE").getD 0)))) := rfl

theorem tail_postTargets (cnm cp : List Row → List ZRow → String → List Int)
    (soc : List Row → Bool → List Int) (obscon : String)
    (targets : Catalog) (zcat : Option ZCat) (scnd : Option Catalog) (trim : Bool)
    (targets2 : Catalog) (isScnd : List Bool) (numExtra : Nat)
    (ztargets : ZCat) (zmatcher : List Nat) :
    (make_mtl_tail cnm cp soc obscon targets zcat scnd trim
      targets2 isScnd numExtra ztargets zmatcher).postTargets =
      (if scnd.isSome then targets else targets2) := rfl

theorem tail_postZcat (cnm cp : List Row → List ZRow → String → List Int)
    (soc : List Row → Bool → List Int) (obscon : String)
    (targets : Catalog) (zcat : Option ZCat) (scnd : Option Catalog) (trim : Bool)
    (targets2 : Catalog) (isScnd : List Bool) (numExtra : Nat)
    (ztargets : ZCat) (zmatcher : List Nat) :
    (make_mtl_tail cnm cp soc obscon targets zcat scnd trim
      targets2 isScnd numExtra ztargets zmatcher).postZcat =
      (match zcat with
       | none => none
       | some z => some (if numExtra > 0 then z
           else zeroTerminal
             (cp (zmatcher.map (fun i => targets2.rows.getD i zeroRow))
               (setColZ ztargets "NUMOBS_MORE"
                 (cnm (zmatcher.map (fun i => targets2.rows.getD i zeroRow))
                   ztargets.rows obscon)).rows obscon)
             (setColZ ztargets "NUMOBS_MORE"
               (cnm (zmatcher.map (fun i => targets2.rows.getD i zeroRow))
                 ztargets.rows obscon)))) := rfl

/-! Lemmas about the output assembly. -/

theorem not_mem_zip_map_fst {α β : Type} (as : List α) (bs : List β) (j : α) (h : j ∉ as) :
    j ∉ (as.zip bs).map Prod.fst := by
  intro hmem
  rcases List.mem_map.mp hmem with ⟨p, hp, rfl⟩
  exact h (List.of_mem_zip hp).1

theorem getD_mem {α : Type} (l : List α) (k : Nat) (d : α) (h : k < l.length) :
    l.getD k d ∈ l := by
  induction l generalizing k with
  | nil => simp at h
  | cons x xs ih =>
    cases k with
    | zero => exact List.mem_cons_self x xs
    | succ k =>
      simp only [List.getD_cons_succ]
      exact List.mem_cons_of_mem x (ih k (Nat.lt_of_succ_lt_succ h))

theorem assembleMtl_length (t2 : Catalog) (ob : List Int) (zm : List Nat)
    (pr noms : List Int) :
    (assembleMtl t2 ob zm pr noms).rows.length = min t2.rows.length ob.length := by
  simp only [assembleMtl, scatterCol, setCol, getCol]
  rw [scatterRows_length, scatterRows_length]
  simp [List.length_zipWith]

theorem setCol_rows_length (t : Catalog) (c : String) (vs : List Int) :
    (setCol t c vs).rows.length = min t.rows.length vs.length := by
  simp [setCol, List.length_zipWith]

theorem setCol_getD (t : Catalog) (c : String) (vs : List Int) (j : Nat)
    (hj : j < t.rows.length) (hv : j < vs.length) :
    (setCol t c vs).rows.getD j zeroRow = rowSet (t.rows.getD j zeroRow) c (vs.getD j 0) :=
  getD_zipWith (fun r v => rowSet r c v) t.rows vs j zeroRow 0 zeroRow hj hv

theorem getCol_length (t : Catalog) (c : String) : (getCol t c).length = t.rows.length := by
  simp [getCol]

theorem getCol_getD (t : Catalog) (c : String) (j : Nat) (hj : j < t.rows.length) :
    (getCol t c).getD j 0 = (t.rows.getD j zeroRow) c := by
  simp only [getCol]
  exact getD_map (fun r => r c) t.rows j zeroRow 0 hj

theorem assembleMtl_unmatched (t2 : Catalog) (ob : List Int) (zm : List Nat)
    (pr noms : List Int) (j : Nat) (hj : j < t2.rows.length)
    (hob : t2.rows.length ≤ ob.length) (hnm : j ∉ zm) :
    ((assembleMtl t2 ob zm pr noms).rows.getD j zeroRow) "PRIORITY"
        = (t2.rows.getD j zeroRow) "PRIORITY_INIT" ∧
      ((assembleMtl t2 ob zm pr noms).rows.getD j zeroRow) "NUMOBS_MORE"
        = (t2.rows.getD j zeroRow) "NUMOBS_INIT" := by
  have l1 : (setCol t2 "NUMOBS_MORE" (getCol t2 "NUMOBS_INIT")).rows.length
      = t2.rows.length := by
    rw [setCol_rows_length, getCol_length, Nat.min_self]
  have l2 : (setCol (setCol t2 "NUMOBS_MORE" (getCol t2 "NUMOBS_INIT")) "PRIORITY"
      (getCol (setCol t2 "NUMOBS_MORE" (getCol t2 "NUMOBS_INIT")) "PRIORITY_INIT")).rows.length
      = t2.rows.length := by
    rw [setCol_rows_length, getCol_length, Nat.min_self, l1]
  simp only [assembleMtl, scatterCol]
  rw [scatterRows_getD_notMem _ _ _ _ (not_mem_zip_map_fst _ _ _ hnm),
    scatterRows_getD_notMem _ _ _ _ (not_mem_zip_map_fst _ _ _ hnm),
    setCol_getD (setCol (setCol t2 "NUMOBS_MORE" (getCol t2 "NUMOBS_INIT")) "PRIORITY"
        (getCol (setCol t2 "NUMOBS_MORE" (getCol t2 "NUMOBS_INIT")) "PRIORITY_INIT"))
      "OBSCONDITIONS" ob j (by rw [l2]; exact hj) (Nat.lt_of_lt_of_le hj hob),
    setCol_getD (setCol t2 "NUMOBS_MORE" (getCol t2 "NUMOBS_INIT")) "PRIORITY"
      (getCol (setCol t2 "NUMOBS_MORE" (getCol t2 "NUMOBS_INIT")) "PRIORITY_INIT") j
      (by rw [l1]; exact hj) (by rw [getCol_length, l1]; exact hj),
    getCol_getD (setCol t2 "NUMOBS_MORE" (getCol t2 "NUMOBS_INIT")) "PRIORITY_INIT" j
      (by rw [l1]; exact hj),
    setCol_getD t2 "NUMOBS_MORE" (getCol t2 "NUMOBS_INIT") j hj
      (by rw [getCol_length]; exact hj),
    getCol_getD t2 "NUMOBS_INIT" j hj]
  constructor <;> simp [rowSet]

theorem assembleMtl_hit (t2 : Catalog) (ob : List Int) (zm : List Nat)
    (pr noms : List Int) (k : Nat) (hnd : zm.Nodup) (hk : k < zm.length)
    (hlen : zm.length ≤ noms.length) (hob : t2.rows.length ≤ ob.length)
    (hbound : zm.getD k 0 < t2.rows.length) :
    ((assembleMtl t2 ob zm pr noms).rows.getD (zm.getD k 0) zeroRow) "NUMOBS_MORE"
      = noms.getD k 0 := by
  have hfst : (zm.zip noms).map Prod.fst = zm := List.map_fst_zip zm noms hlen
  have hm4 : (scatterRows (setCol (setCol (setCol t2 "NUMOBS_MORE"
      (getCol t2 "NUMOBS_INIT")) "PRIORITY" (getCol (setCol t2 "NUMOBS_MORE"
      (getCol t2 "NUMOBS_INIT")) "PRIORITY_INIT")) "OBSCONDITIONS" ob).rows
      "PRIORITY" (zm.zip pr)).length = t2.rows.length := by
    rw [scatterRows_length]
    simp only [setCol_rows_length, getCol_length]
    omega
  have hiv : (zm.zip noms).getD k (0, 0) = (zm.getD k 0, noms.getD k 0) :=
    getD_zip zm noms k 0 0 hk (Nat.lt_of_lt_of_le hk hlen)
  simp only [assembleMtl, scatterCol]
  have h := scatterRows_hit "NUMOBS_MORE" (zm.zip noms)
    (scatterRows (setCol (setCol (setCol t2 "NUMOBS_MORE"
      (getCol t2 "NUMOBS_INIT")) "PRIORITY" (getCol (setCol t2 "NUMOBS_MORE"
      (getCol t2 "NUMOBS_INIT")) "PRIORITY_INIT")) "OBSCONDITIONS" ob).rows
      "PRIORITY" (zm.zip pr)) k
    (by rw [hfst]; exact hnd)
    (by rw [List.length_zip]; omega)
    (by rw [hiv]; rw [hm4]; exact hbound)
  rw [hiv] at h
  exact h

/-! Lemmas about `make_mtl_tail`. -/

theorem applyTrim_false (t : Catalog) : applyTrim false t = t := rfl

theorem setColZ_rows_length (z : ZCat) (c : String) (vs : List Int) :
    (setColZ z c vs).rows.length = min z.rows.length vs.length := by
  simp [setColZ, List.length_zipWith]

theorem mkObscon_length (soc : List Row → Bool → List Int) (targets2 : Catalog)
    (isScnd : List Bool) (scnd : Option Catalog)
    (hsoc : ∀ rs b, (soc rs b).length = rs.length) :
    (mkObscon soc targets2 isScnd scnd).length = targets2.rows.length := by
  cases scnd with
  | none => exact hsoc _ _
  | some sc => rw [mkObscon, maskAssign_length, hsoc]

theorem tail_mtl_eq (cnm cp : List Row → List ZRow → String → List Int)
    (soc : List Row → Bool → List Int) (obscon : String)
    (targets : Catalog) (zcat : Option ZCat) (scnd : Option Catalog) (trim : Bool)
    (targets2 : Catalog) (isScnd : List Bool) (numExtra : Nat)
    (ztargets : ZCat) (zmatcher : List Nat) :
    (make_mtl_tail cnm cp soc obscon targets zcat scnd trim
      targets2 isScnd numExtra ztargets zmatcher).mtl =
      applyTrim trim (assembleMtl targets2 (mkObscon soc targets2 isScnd scnd) zmatcher
        (cp (zmatcher.map (fun i => targets2.rows.getD i zeroRow))
          (setColZ ztargets "NUMOBS_MORE"
            (cnm (zmatcher.map (fun i => targets2.rows.getD i zeroRow))
              ztargets.rows obscon)).rows obscon)
        ((zeroTerminal
            (cp (zmatcher.map (fun i => targets2.rows.getD i zeroRow))
              (setColZ ztargets "NUMOBS_MORE"
                (cnm (zmatcher.map (fun i => targets2.rows.getD i zeroRow))
                  ztargets.rows obscon)).rows obscon)
            (setColZ ztargets "NUMOBS_MORE"
              (cnm (zmatcher.map (fun i => targets2.rows.getD i zeroRow))
                ztargets.rows obscon))).rows.map
          (fun r => (r "NUMOBS_MORE").getD 0))) := rfl

theorem tail_mtl_len_noTrim (cnm cp : List Row → List ZRow → String → List Int)
    (soc : List Row → Bool → List Int) (obscon : String)
    (targets : Catalog) (zcat : Option ZCat) (scnd : Option Catalog)
    (targets2 : Catalog) (isScnd : List Bool) (numExtra : Nat)
    (ztargets : ZCat) (zmatcher : List Nat)
    (hsoc : ∀ rs b, (soc rs b).length = rs.length) :
    (make_mtl_tail cnm cp soc obscon targets zcat scnd false
      targets2 isScnd numExtra ztargets zmatcher).mtl.rows.length
      = targets2.rows.length := by
  rw [tail_mtl_eq, applyTrim_false, assembleMtl_length,
    mkObscon_length soc targets2 isScnd scnd hsoc, Nat.min_self]

theorem tail_unmatched (cnm cp : List Row → List ZRow → String → List Int)
    (soc : List Row → Bool → List Int) (obscon : String)
    (targets : Catalog) (zcat : Option ZCat) (scnd : Option Catalog)
    (targets2 : Catalog) (isScnd : List Bool) (numExtra : Nat)
    (ztargets : ZCat) (zmatcher : List Nat) (j : Nat)
    (hsoc : ∀ rs b, (soc rs b).length = rs.length)
    (hj : j < targets2.rows.length) (hnm : j ∉ zmatcher) :
    (((make_mtl_tail cnm cp soc obscon targets zcat scnd false
        targets2 isScnd numExtra ztargets zmatcher).mtl.rows.getD j zeroRow) "PRIORITY"
      = (targets2.rows.getD j zeroRow) "PRIORITY_INIT") ∧
    (((make_mtl_tail cnm cp soc obscon targets zcat scnd false
        targets2 isScnd numExtra ztargets zmatcher).mtl.rows.getD j zeroRow) "NUMOBS_MORE"
      = (targets2.rows.getD j zeroRow) "NUMOBS_INIT") := by
  rw [tail_mtl_eq, applyTrim_false]
  exact assembleMtl_unmatched _ _ _ _ _ j hj
    (Nat.le_of_eq (mkObscon_length soc targets2 isScnd scnd hsoc).symm) hnm

theorem tail_terminal (cnm cp : List Row → List ZRow → String → List Int)
    (soc : List Row → Bool → List Int) (obscon : String)
    (targets : Catalog) (zcat : Option ZCat) (scnd : Option Catalog)
    (targets2 : Catalog) (isScnd : List Bool) (numExtra : Nat)
    (ztargets : ZCat) (zmatcher : List Nat) (k : Nat)
    (hsoc : ∀ rs b, (soc rs b).length = rs.length)
    (hcnm : ∀ tz zs oc, (cnm tz zs oc).length = zs.length)
    (hcp : ∀ tz zs oc, (cp tz zs oc).length = zs.length)
    (hzlen : zmatcher.length = ztargets.rows.length)
    (hnd : zmatcher.Nodup) (hk : k < zmatcher.length)
    (hbound : zmatcher.getD k 0 < targets2.rows.length)
    (hp : (make_mtl_tail cnm cp soc obscon targets zcat scnd false
        targets2 isScnd numExtra ztargets zmatcher).priority.getD k 0 ≤ 2) :
    ((make_mtl_tail cnm cp soc obscon targets zcat scnd false
        targets2 isScnd numExtra ztargets zmatcher).mtl.rows.getD
        (zmatcher.getD k 0) zeroRow) "NUMOBS_MORE" = 0 := by
  rw [tail_priority] at hp
  rw [tail_mtl_eq, applyTrim_false]
  set tzm := zmatcher.map (fun i => targets2.rows.getD i zeroRow) with htzm
  set zt2 := setColZ ztargets "NUMOBS_MORE" (cnm tzm ztargets.rows obscon) with hzt2
  set P := cp tzm zt2.rows obscon with hP
  have hzt2len : zt2.rows.length = ztargets.rows.length := by
    rw [hzt2, setColZ_rows_length, hcnm, Nat.min_self]
  have hPlen : P.length = ztargets.rows.length := by rw [hP, hcp, hzt2len]
  have hztlen : (zeroTerminal P zt2).rows.length = ztargets.rows.length := by
    simp [zeroTerminal, List.length_zipWith, hPlen, hzt2len]
  have hnoms : ((zeroTerminal P zt2).rows.map
      (fun r => (r "NUMOBS_MORE").getD 0)).getD k 0 = 0 := by
    rw [getD_map _ _ _ noneZRow _ (by rw [hztlen, ← hzlen]; exact hk)]
    have hrow : (zeroTerminal P zt2).rows.getD k noneZRow =
        if P.getD k 0 ≤ 2 then zrowSet (zt2.rows.getD k noneZRow) "NUMOBS_MORE" (some 0)
        else zt2.rows.getD k noneZRow := by
      simp only [zeroTerminal]
      exact getD_zipWith (fun p r => if p ≤ 2 then zrowSet r "NUMOBS_MORE" (some 0) else r)
        P zt2.rows k 0 noneZRow noneZRow (by rw [hPlen, ← hzlen]; exact hk)
        (by rw [hzt2len, ← hzlen]; exact hk)
    rw [hrow, if_pos hp]
    simp [zrowSet]
  have hhit := assembleMtl_hit targets2 (mkObscon soc targets2 isScnd scnd) zmatcher P
    ((zeroTerminal P zt2).rows.map (fun r => (r "NUMOBS_MORE").getD 0)) k hnd hk
    (by rw [List.length_map, hztlen, ← hzlen])
    (Nat.le_of_eq (mkObscon_length soc targets2 isScnd scnd hsoc).symm) hbound
  rw [hhit, hnoms]

/-! Bridging lemmas between `make_mtl` and its tail. -/

theorem exceptMapM_ok_mem {α β : Type} (f : α → Except String β) :
    ∀ (l : List α) (out : List β), exceptMapM f l = Except.ok out →
      ∀ b ∈ out, ∃ a ∈ l, f a = Except.ok b := by
  intro l
  induction l with
  | nil =>
    intro out h b hb
    cases h
    simp at hb
  | cons a l ih =>
    intro out h b hb
    rcases exceptMapM_ok_cons f a l out h with ⟨b0, out2, hfa, hml, rfl⟩
    rcases List.mem_cons.mp hb with rfl | hb2
    · exact ⟨a, List.mem_cons_self a l, hfa⟩
    · rcases ih out2 hml b hb2 with ⟨a2, ha2, hfa2⟩
      exact ⟨a2, List.mem_cons_of_mem a ha2, hfa2⟩

theorem exceptMap_ok {α β : Type} (f : α → β) (a : α) :
    Except.map f (Except.ok a : Except String α) = Except.ok (f a) := rfl

theorem exceptMap_error {α β : Type} (f : α → β) (e : String) :
    Except.map f (Except.error e : Except String α) = Except.error e := rfl

theorem exOk_ok (o : MtlOutcome) : exOk (Except.ok o) = true := rfl

theorem exOk_error (e : String) : exOk (Except.error e) = false := rfl

theorem outMtl_ok (o : MtlOutcome) : outMtl (Except.ok o) = o.mtl := rfl

theorem outZmatcher_ok (o : MtlOutcome) : outZmatcher (Except.ok o) = o.zmatcher := rfl

theorem outPriority_ok (o : MtlOutcome) : outPriority (Except.ok o) = o.priority := rfl

theorem outNumExtra_ok (o : MtlOutcome) : outNumExtra (Except.ok o) = o.numExtra := rfl

theorem outPostTargets_ok (o : MtlOutcome) : outPostTargets (Except.ok o) = o.postTargets := rfl

theorem outPostZcat_ok (o : MtlOutcome) : outPostZcat (Except.ok o) = o.postZcat := rfl

theorem mkTids_renameCol (old new : String) (t : Catalog)
    (hnew : ("TARGETID" : String) ≠ new) :
    mkTids (renameCol old new t) = mkTids t := by
  unfold renameCol
  by_cases h : old ∈ t.cols
  · rw [if_pos h]
    simp only [mkTids, List.map_map, Function.comp]
    congr 1
    funext r
    show (if "TARGETID" = new then r old else r "TARGETID") = r "TARGETID"
    rw [if_neg hnew]
  · rw [if_neg h]

theorem mkTids_renamed (t : Catalog) : mkTids (renamed t) = mkTids t := by
  unfold renamed
  rw [mkTids_renameCol _ _ _ (by decide), mkTids_renameCol _ _ _ (by decide)]

theorem renamed_id (t : Catalog) (h1 : "NUMOBS" ∉ t.cols) (h2 : "PRIORITY" ∉ t.cols) :
    renamed t = t := by
  unfold renamed renameCol
  rw [if_neg h1, if_neg h2]

theorem filteredZ_rows_pred (tids1 : List Int) (z : ZCat) :
    ∀ r ∈ (filteredZ tids1 z).rows, zPred tids1 r = true := by
  unfold filteredZ
  by_cases h : numDropped tids1 z > 0
  · rw [if_pos h]
    intro r hr
    exact (List.mem_filter.mp hr).2
  · rw [if_neg h]
    intro r hr
    have hle := List.length_filter_le (zPred tids1) z.rows
    have hlen : (z.rows.filter (zPred tids1)).length = z.rows.length := by
      unfold numDropped at h
      omega
    have heq : z.rows.filter (zPred tids1) = z.rows :=
      List.Sublist.eq_of_length (List.filter_sublist _) hlen
    exact List.filter_eq_self.mp heq r hr

theorem lookupLast_ok_of_pred (tids1 tids2 : List Int) (r : ZRow)
    (heq : tids2 = tids1) (hp : zPred tids1 r = true) :
    ∃ i, lookupLast tids2 (r "TARGETID") = Except.ok i := by
  unfold zPred at hp
  rcases List.any_eq_true.mp hp with ⟨t, ht, he⟩
  have he2 : r "TARGETID" = some t := of_decide_eq_true he
  rcases lastIdx?_isSome_of_mem tids1 t ht with ⟨i, hi⟩
  refine ⟨i, ?_⟩
  rw [heq, he2]
  unfold lookupLast
  rw [hi]

theorem make_mtl_some_ok (cnm cp : List Row → List ZRow → String → List Int)
    (soc : List Row → Bool → List Int) (targets : Catalog) (obscon : String)
    (z : ZCat) (trim : Bool) (scnd : Option Catalog) :
    ∃ o, make_mtl cnm cp soc targets obscon (some z) trim scnd = Except.ok o := by
  rw [make_mtl_some_eq]
  have hforall : ∀ r ∈ (filteredZ (mkTids (mkTargets1 targets scnd).1) z).rows,
      ∃ i, lookupLast (mkTids (renamed (mkTargets1 targets scnd).1))
        (r "TARGETID") = Except.ok i := by
    intro r hr
    exact lookupLast_ok_of_pred (mkTids (mkTargets1 targets scnd).1) _ r
      (mkTids_renamed _) (filteredZ_rows_pred _ z r hr)
  rcases exceptMapM_ok_of_forall _ _ hforall with ⟨zm, hzm⟩
  rw [hzm]
  exact ⟨_, rfl⟩

theorem zm_nodup (tids : List Int) :
    ∀ (rs : List ZRow) (zm : List Nat),
      exceptMapM (fun r => lookupLast tids (r "TARGETID")) rs = Except.ok zm →
      (rs.map (fun r => r "TARGETID")).Nodup → zm.Nodup := by
  intro rs
  induction rs with
  | nil =>
    intro zm h _
    cases h
    exact List.nodup_nil
  | cons r rs ih =>
    intro zm h hnd
    rcases exceptMapM_ok_cons _ r rs zm h with ⟨i, zm2, hfr, hml, rfl⟩
    simp only [List.map_cons, List.nodup_cons] at hnd
    refine List.nodup_cons.mpr ⟨?_, ih zm2 hml hnd.2⟩
    intro hmem
    rcases exceptMapM_ok_mem _ rs zm2 hml i hmem with ⟨r2, hr2, hfr2⟩
    have h1 := lookupLast_ok_some tids (r "TARGETID") i hfr
    have h2 := lookupLast_ok_some tids (r2 "TARGETID") i hfr2
    exact hnd.1 (List.mem_map.mpr ⟨r2, hr2, by rw [h2, h1]⟩)

theorem zm_bounds (tids : List Int) (rs : List ZRow) (zm : List Nat)
    (h : exceptMapM (fun r => lookupLast tids (r "TARGETID")) rs = Except.ok zm)
    (k : Nat) (hk : k < rs.length) : zm.getD k 0 < tids.length :=
  lookupLast_ok_bounds tids _ _ (exceptMapM_ok_getD _ noneZRow 0 rs zm h k hk)

theorem make_mtl_some_none_eq (cnm cp : List Row → List ZRow → String → List Int)
    (soc : List Row → Bool → List Int) (targets : Catalog) (obscon : String)
    (z : ZCat) (trim : Bool) :
    make_mtl cnm cp soc targets obscon (some z) trim none =
      (exceptMapM (fun r => lookupLast (mkTids (renamed targets)) (r "TARGETID"))
        (filteredZ (mkTids targets) z).rows).map
        (fun zm => make_mtl_tail cnm cp soc obscon targets (some z) none trim
          (renamed targets) [] (numDropped (mkTids targets) z)
          (fillMasked (filteredZ (mkTids targets) z)) zm) := rfl

/-- Claim C1: for every target row in make_mtl's output that was not
matched by any row of the zcat (its index is not in the alignment index
vector), the output PRIORITY equals the input PRIORITY_INIT and the
output NUMOBS_MORE equals the input NUMOBS_INIT; the evaluated results
overwrite only the rows selected by the alignment index vector. -/
theorem claim_C1_default_preservation
    (cnm cp : List Row → List ZRow → String → List Int)
    (soc : List Row → Bool → List Int) (targets : Catalog) (obscon : String)
    (z : ZCat) (j : Nat)
    (hsoc : ∀ rs b, (soc rs b).length = rs.length)
    (hleg1 : "NUMOBS" ∉ targets.cols) (hleg2 : "PRIORITY" ∉ targets.cols)
    (hok : exOk (make_mtl cnm cp soc targets obscon (some z) false none) = true)
    (hj : j < (outMtl (make_mtl cnm cp soc targets obscon (some z) false none)).rows.length)
    (hnm : j ∉ outZmatcher (make_mtl cnm cp soc targets obscon (some z) false none)) :
    ((outMtl (make_mtl cnm cp soc targets obscon (some z) false none)).rows.getD j zeroRow)
        "PRIORITY" = (targets.rows.getD j zeroRow) "PRIORITY_INIT" ∧
      ((outMtl (make_mtl cnm cp soc targets obscon (some z) false none)).rows.getD j zeroRow)
        "NUMOBS_MORE" = (targets.rows.getD j zeroRow) "NUMOBS_INIT" := by
  have hren : renamed targets = targets := renamed_id targets hleg1 hleg2
  rw [make_mtl_some_none_eq, hren] at hok hj hnm ⊢
  cases hE : exceptMapM (fun r => lookupLast (mkTids targets) (r "TARGETID"))
      (filteredZ (mkTids targets) z).rows with
  | error e =>
    rw [hE, exceptMap_error, exOk_error] at hok
    cases hok
  | ok zm =>
    rw [exceptMap_ok, outMtl_ok]
    rw [hE, exceptMap_ok, outMtl_ok] at hj
    rw [hE, exceptMap_ok, outZmatcher_ok, tail_zmatcher] at hnm
    rw [tail_mtl_len_noTrim _ _ _ _ _ _ _ _ _ _ _ _ hsoc] at hj
    exact tail_unmatched cnm cp soc obscon targets (some z) none targets [] _ _ _ j hsoc hj hnm

/-- Witness for C1: the unmatched second target of the two-row example
keeps its initial priority 200 and initial required count 2. -/
theorem claim_C1_default_preservation_witness :
    ((outMtl (make_mtl cnm0 cp0 soc0 T0 "DARK" (some Z1) false none)).rows.getD 1 zeroRow)
        "PRIORITY" = (T0.rows.getD 1 zeroRow) "PRIORITY_INIT" ∧
      ((outMtl (make_mtl cnm0 cp0 soc0 T0 "DARK" (some Z1) false none)).rows.getD 1 zeroRow)
        "NUMOBS_MORE" = (T0.rows.getD 1 zeroRow) "NUMOBS_INIT" :=
  claim_C1_default_preservation cnm0 cp0 soc0 T0 "DARK" Z1 1
    (fun rs b => by simp [soc0]) (by decide) (by decide) (by decide) (by decide) (by decide)

theorem mkTids_length (t : Catalog) : (mkTids t).length = t.rows.length := by
  simp [mkTids]

theorem fillMasked_rows_length (z : ZCat) : (fillMasked z).rows.length = z.rows.length := by
  unfold fillMasked
  by_cases h : z.masked
  · rw [if_pos h]; simp
  · rw [if_neg h]

theorem filteredZ_rows_sublist (tids1 : List Int) (z : ZCat) :
    (filteredZ tids1 z).rows.Sublist z.rows := by
  unfold filteredZ
  by_cases h : numDropped tids1 z > 0
  · rw [if_pos h]; exact List.filter_sublist _
  · rw [if_neg h]

/-- Claim C2: for every zcat-aligned row whose priority computed by the
external evaluator is at most 2 (do-not-observe, observed, done), the
output NUMOBS_MORE is 0, even if the remaining-count evaluator returned
a nonzero value (the evaluators are arbitrary length-preserving
functions here).  The zcat is assumed to carry distinct TARGETIDs, as
the reconciler expects at most one observation record per identifier. -/
theorem claim_C2_terminal_zeroing
    (cnm cp : List Row → List ZRow → String → List Int)
    (soc : List Row → Bool → List Int) (targets : Catalog) (obscon : String)
    (z : ZCat) (k : Nat)
    (hsoc : ∀ rs b, (soc rs b).length = rs.length)
    (hcnm : ∀ tz zs oc, (cnm tz zs oc).length = zs.length)
    (hcp : ∀ tz zs oc, (cp tz zs oc).length = zs.length)
    (hnd : (z.rows.map (fun r => r "TARGETID")).Nodup)
    (hok : exOk (make_mtl cnm cp soc targets obscon (some z) false none) = true)
    (hk : k < (outPriority (make_mtl cnm cp soc targets obscon (some z) false none)).length)
    (hp : (outPriority (make_mtl cnm cp soc targets obscon (some z) false none)).getD k 0 ≤ 2) :
    ((outMtl (make_mtl cnm cp soc targets obscon (some z) false none)).rows.getD
      ((outZmatcher (make_mtl cnm cp soc targets obscon (some z) false none)).getD k 0)
      zeroRow) "NUMOBS_MORE" = 0 := by
  rw [make_mtl_some_none_eq] at hok hk hp ⊢
  cases hE : exceptMapM (fun r => lookupLast (mkTids (renamed targets)) (r "TARGETID"))
      (filteredZ (mkTids targets) z).rows with
  | error e => rw [hE, exceptMap_error, exOk_error] at hok; cases hok
  | ok zm =>
    rw [exceptMap_ok, outMtl_ok, outZmatcher_ok, tail_zmatcher]
    rw [hE, exceptMap_ok, outPriority_ok] at hk hp
    have hlen1 : zm.length = (filteredZ (mkTids targets) z).rows.length :=
      exceptMapM_ok_length _ _ _ hE
    have hfm : (fillMasked (filteredZ (mkTids targets) z)).rows.length
        = (filteredZ (mkTids targets) z).rows.length := fillMasked_rows_length _
    have hzlen : zm.length = (fillMasked (filteredZ (mkTids targets) z)).rows.length := by
      rw [hlen1, hfm]
    have hndz : zm.Nodup := zm_nodup _ _ _ hE
      (List.Nodup.sublist (List.Sublist.map _ (filteredZ_rows_sublist _ _)) hnd)
    have hkz : k < zm.length := by
      rw [tail_priority, hcp, setColZ_rows_length, hcnm, Nat.min_self] at hk
      omega
    have hbound0 : zm.getD k 0 < (mkTids (renamed targets)).length :=
      zm_bounds _ _ zm hE k (by rw [← hlen1]; exact hkz)
    have hbound : zm.getD k 0 < (renamed targets).rows.length := by
      rw [mkTids_length] at hbound0
      exact hbound0
    exact tail_terminal cnm cp soc obscon targets (some z) none (renamed targets) []
      (numDropped (mkTids targets) z) (fillMasked (filteredZ (mkTids targets) z)) zm k
      hsoc hcnm hcp hzlen hndz hkz hbound hp

/-- Witness for C2: the matched target's priority evaluates to 1, so its
NUMOBS_MORE is 0 in the output even though the count evaluator
returned 5. -/
theorem claim_C2_terminal_zeroing_witness :
    ((outMtl (make_mtl cnm0 cp0 soc0 T0 "DARK" (some Z1) false none)).rows.getD
      ((outZmatcher (make_mtl cnm0 cp0 soc0 T0 "DARK" (some Z1) false none)).getD 0 0)
      zeroRow) "NUMOBS_MORE" = 0 :=
  claim_C2_terminal_zeroing cnm0 cp0 soc0 T0 "DARK" Z1 0
    (fun rs b => by simp [soc0]) (fun tz zs oc => by simp [cnm0])
    (fun tz zs oc => by simp [cp0]) (by decide) (by decide) (by decide) (by decide)

theorem renameCol_rows_length (old new : String) (t : Catalog) :
    (renameCol old new t).rows.length = t.rows.length := by
  unfold renameCol
  by_cases h : old ∈ t.cols
  · rw [if_pos h]; simp
  · rw [if_neg h]

theorem renamed_rows_length (t : Catalog) : (renamed t).rows.length = t.rows.length := by
  unfold renamed
  rw [renameCol_rows_length, renameCol_rows_length]

/-- The number of rows a secondary catalog contributes. -/
def scndLen : Option Catalog → Nat
  | none => 0
  | some sc => sc.rows.length

theorem mkTargets1_rows_length (targets : Catalog) (scnd : Option Catalog) :
    (mkTargets1 targets scnd).1.rows.length = targets.rows.length + scndLen scnd := by
  cases scnd with
  | none => simp [mkTargets1, scndLen]
  | some sc => simp [mkTargets1, padTargets, scndLen]

/-- Counterexample to claim C3 as stated: the `trim` keyword defaults to
false in the source signature, and a call that omits `trim` (modelled by
passing the signature default) returns a table that still contains a row
whose NUMOBS_MORE is 0. -/
theorem claim_C3_trim_default_counterexample :
    make_mtl_trim_default = false ∧
      (outMtl (make_mtl cnm0 cp0 soc0 T0 "DARK" none make_mtl_trim_default none)).rows.length
        = 2 ∧
      ((outMtl (make_mtl cnm0 cp0 soc0 T0 "DARK" none make_mtl_trim_default none)).rows.getD 0
        zeroRow) "NUMOBS_MORE" = 0 :=
  ⟨rfl, by decide, by decide⟩

/-- Claim C3, amended: the trim flag of make_mtl defaults to false; when
the caller does not pass trim, no row is excluded from the returned
table - the output has exactly one row per (possibly secondary-padded)
input target, including rows whose NUMOBS_MORE is 0. -/
theorem claim_C3_trim_default_amended
    (cnm cp : List Row → List ZRow → String → List Int)
    (soc : List Row → Bool → List Int) (targets : Catalog) (obscon : String)
    (zcat : Option ZCat) (scnd : Option Catalog)
    (hsoc : ∀ rs b, (soc rs b).length = rs.length)
    (hok : exOk (make_mtl cnm cp soc targets obscon zcat make_mtl_trim_default scnd) = true) :
    make_mtl_trim_default = false ∧
      (outMtl (make_mtl cnm cp soc targets obscon zcat make_mtl_trim_default scnd)).rows.length
        = targets.rows.length + scndLen scnd := by
  refine ⟨rfl, ?_⟩
  rw [show make_mtl_trim_default = false from rfl] at hok ⊢
  cases zcat with
  | none =>
    rw [make_mtl_none_eq, outMtl_ok,
      tail_mtl_len_noTrim _ _ _ _ _ _ _ _ _ _ _ _ hsoc,
      renamed_rows_length, mkTargets1_rows_length]
  | some z =>
    rw [make_mtl_some_eq] at hok ⊢
    cases hE : exceptMapM
        (fun r => lookupLast (mkTids (renamed (mkTargets1 targets scnd).1)) (r "TARGETID"))
        (filteredZ (mkTids (mkTargets1 targets scnd).1) z).rows with
    | error e => rw [hE, exceptMap_error, exOk_error] at hok; cases hok
    | ok zm =>
      rw [exceptMap_ok, outMtl_ok,
        tail_mtl_len_noTrim _ _ _ _ _ _ _ _ _ _ _ _ hsoc,
        renamed_rows_length, mkTargets1_rows_length]

/-- Witness for the amended C3. -/
theorem claim_C3_trim_default_amended_witness :
    make_mtl_trim_default = false ∧
      (outMtl (make_mtl cnm0 cp0 soc0 T0 "DARK" none make_mtl_trim_default none)).rows.length
        = T0.rows.length + scndLen none :=
  claim_C3_trim_default_amended cnm0 cp0 soc0 T0 "DARK" none none
    (fun rs b => by simp [soc0]) (by decide)

theorem buildLedgerTable_base (cnm cp : List Row → List ZRow → String → List Int)
    (soc : List Row → Bool → List Int) (Mxs : List BitMask) (ts : String)
    (targs : Catalog) (obscon : String) :
    (buildLedgerTable cnm cp soc Mxs ts targs obscon).base =
      (make_mtl_tail cnm cp soc obscon targs none none make_mtl_trim_default
        (renamed targs) [] 0 (synthZcat (renamed targs))
        (List.range (renamed targs).rows.length)).mtl := rfl

theorem buildLedgerTable_targetState (cnm cp : List Row → List ZRow → String → List Int)
    (soc : List Row → Bool → List Int) (Mxs : List BitMask) (ts : String)
    (targs : Catalog) (obscon : String) :
    (buildLedgerTable cnm cp soc Mxs ts targs obscon).targetState =
      assignStates (priodict Mxs)
        (getCol (buildLedgerTable cnm cp soc Mxs ts targs obscon).base "PRIORITY_INIT") := rfl

theorem buildLedgerTable_timestamp (cnm cp : List Row → List ZRow → String → List Int)
    (soc : List Row → Bool → List Int) (Mxs : List BitMask) (ts : String)
    (targs : Catalog) (obscon : String) :
    (buildLedgerTable cnm cp soc Mxs ts targs obscon).timestamp =
      List.replicate (buildLedgerTable cnm cp soc Mxs ts targs obscon).base.rows.length ts := rfl

/-- Claim C10: the table built at mtl.py line 256 inside
make_ledger_in_hp (the `base` field, which is reached on every call)
contains exactly one row per target read for the pixel: the internal
make_mtl call omits the trim argument, whose source default is false, so
the trimming branch is never taken during ledger creation and
NUMOBS_MORE == 0 targets are retained. -/
theorem claim_C10_ledger_retains_done
    (cnm cp : List Row → List ZRow → String → List Int)
    (soc : List Row → Bool → List Int) (Mxs : List BitMask) (ts : String)
    (targs : Catalog) (obscon : String)
    (hsoc : ∀ rs b, (soc rs b).length = rs.length) :
    make_mtl_trim_default = false ∧
      (buildLedgerTable cnm cp soc Mxs ts targs obscon).base.rows.length
        = targs.rows.length := by
  refine ⟨rfl, ?_⟩
  rw [buildLedgerTable_base, show make_mtl_trim_default = false from rfl,
    tail_mtl_len_noTrim _ _ _ _ _ _ _ _ _ _ _ _ hsoc, renamed_rows_length]

/-- Witness for C10: a two-row pixel yields a two-row ledger base table,
although both rows have NUMOBS_MORE = 0 under the terminal evaluator. -/
theorem claim_C10_ledger_retains_done_witness :
    make_mtl_trim_default = false ∧
      (buildLedgerTable cnm0 cp0 soc0 [] "2021-01-01T00:00:00" T0 "DARK").base.rows.length
        = T0.rows.length :=
  claim_C10_ledger_retains_done cnm0 cp0 soc0 [] "2021-01-01T00:00:00" T0 "DARK"
    (fun rs b => by simp [soc0])

/-- Claim C6 (code defect, evaluated on the code): for every input,
`make_ledger_in_hp` raises a NameError at mtl.py line 259 - `datetime`
is never imported by the module - so the caller receives an exception
and never the finished ledger-ready table; the timestamp stamping, the
state annotation and the final `return` are unreachable. -/
theorem claim_C6_ledger_in_hp_raises
    (cnm cp : List Row → List ZRow → String → List Int)
    (soc : List Row → Bool → List Int)
    (targs : Catalog) (obscon : String) :
    make_ledger_in_hp cnm cp soc targs obscon
      = Except.error "NameError: name datetime is not defined" := rfl

/-- Claim C8: make_ledger raises a fatal error, with no per-pixel work
performed, whenever the requested obscon string is not contained in the
header's declared OBSCON value; the header check happens before any
pixel is enumerated. -/
theorem claim_C8_obscon_check (hdr : Header) (obscon : String)
    (h : pyIn obscon hdr.obscon = false) :
    make_ledger hdr obscon =
      Except.error ("File is type " ++ hdr.obscon ++ " but requested behavior is "
        ++ obscon) := by
  unfold make_ledger
  rw [if_pos h]

/-- Witness for C8: requesting DARK against a BRIGHT header aborts. -/
theorem claim_C8_obscon_check_witness :
    pyIn "DARK" "BRIGHT" = false ∧
      make_ledger { obscon := "BRIGHT", filensid := 2 } "DARK" =
        Except.error ("File is type " ++ "BRIGHT" ++ " but requested behavior is "
          ++ "DARK") :=
  ⟨rfl, claim_C8_obscon_check { obscon := "BRIGHT", filensid := 2 } "DARK" rfl⟩

/-- An empty secondary catalog. -/
def SCE : Catalog := { cols := ["TARGETID", "SCND_TARGET"], rows := [] }

/-- Counterexample to claim C4 as stated: with a secondary catalog of
length k = 0, no row is appended, yet the mask flags row 0 - an
original, non-appended target row - as secondary-origin, because the
source's `is_scnd[-0:] = True` covers the whole array.  So the mask does
not mark exactly the appended rows. -/
theorem claim_C4_secondary_padding_counterexample :
    SCE.rows.length = 0 ∧
      (padTargets T0 SCE).1.rows.length = T0.rows.length ∧
      (padTargets T0 SCE).2.getD 0 false = true :=
  ⟨rfl, by decide, by decide⟩

/-- Claim C4, amended: the padding step appends exactly `len(scnd)` rows
to the target catalog; an appended row carries the original secondary
value in every column shared between the catalogs and zero in every
non-shared target column; when the secondary catalog is nonempty the
boolean mask marks exactly the appended rows, but when it is empty the
`is_scnd[-0:] = True` slice marks every row as secondary-origin. -/
theorem claim_C4_secondary_padding_amended (targets sc : Catalog) (i j : Nat) (c : String)
    (hc : c ∈ targets.cols)
    (hj : j < targets.rows.length + sc.rows.length) :
    (padTargets targets sc).1.rows.length = targets.rows.length + sc.rows.length ∧
    (i < sc.rows.length →
      ((padTargets targets sc).1.rows.getD (targets.rows.length + i) zeroRow) c
        = (if c ∈ sc.cols then (sc.rows.getD i zeroRow) c else 0)) ∧
    (padTargets targets sc).2.length = targets.rows.length + sc.rows.length ∧
    (0 < sc.rows.length →
      ((padTargets targets sc).2.getD j false = true ↔ targets.rows.length ≤ j)) ∧
    (sc.rows.length = 0 → (padTargets targets sc).2.getD j false = true) := by
  refine ⟨by simp [padTargets], ?_, ?_, ?_, ?_⟩
  · intro hi
    simp only [padTargets]
    rw [getD_append_right, getD_map _ _ _ zeroRow _ hi]
    by_cases hcs : c ∈ sc.cols
    · rw [if_pos hcs,
        if_pos (List.mem_filter.mpr ⟨hc, decide_eq_true hcs⟩)]
    · have hnm2 : ¬(c ∈ List.filter (fun c2 => decide (c2 ∈ sc.cols)) targets.cols) :=
        fun hmem => hcs (of_decide_eq_true (List.mem_filter.mp hmem).2)
      rw [if_neg hcs, if_neg hnm2]
  · by_cases h0 : sc.rows.length = 0
    · simp [padTargets, h0]
    · simp [padTargets, h0]
  · intro hpos
    simp only [padTargets]
    rw [if_neg (by omega)]
    by_cases hlt : j < targets.rows.length
    · rw [getD_append_left _ _ _ _ (by simpa using hlt), getD_replicate _ _ _ _ hlt]
      simp
      omega
    · have hstep := getD_append_right (List.replicate targets.rows.length false)
        (List.replicate sc.rows.length true) (j - targets.rows.length) false
      rw [List.length_replicate] at hstep
      rw [show targets.rows.length + (j - targets.rows.length) = j from by omega] at hstep
      rw [hstep, getD_replicate _ _ _ _ (by omega)]
      simp
      omega
  · intro h0
    simp only [padTargets]
    rw [if_pos h0, getD_replicate _ _ _ _ (by omega)]

/-- A small secondary catalog sharing TARGETID and SCND_TARGET layouts. -/
def SC0 : Catalog :=
  { cols := ["TARGETID", "SCND_TARGET", "PRIORITY_INIT"],
    rows := [fun c => if c = "TARGETID" then 9
      else if c = "SCND_TARGET" then 7
      else if c = "PRIORITY_INIT" then 1500 else 11] }

/-- Witness for the amended C4 at a concrete secondary catalog. -/
theorem claim_C4_secondary_padding_amended_witness :
    (padTargets T0 SC0).1.rows.length = T0.rows.length + SC0.rows.length ∧
    (0 < SC0.rows.length →
      ((padTargets T0 SC0).1.rows.getD (T0.rows.length + 0) zeroRow) "TARGETID"
        = (if "TARGETID" ∈ SC0.cols then (SC0.rows.getD 0 zeroRow) "TARGETID" else 0)) ∧
    (padTargets T0 SC0).2.length = T0.rows.length + SC0.rows.length ∧
    (0 < SC0.rows.length →
      ((padTargets T0 SC0).2.getD 2 false = true ↔ T0.rows.length ≤ 2)) ∧
    (SC0.rows.length = 0 → (padTargets T0 SC0).2.getD 2 false = true) :=
  claim_C4_secondary_padding_amended T0 SC0 0 2 "TARGETID" (by decide) (by decide)

/-- The TARGETIDs of the (possibly secondary-padded) target catalog. -/
def paddedTids (targets : Catalog) (scnd : Option Catalog) : List Int :=
  mkTids (mkTargets1 targets scnd).1

theorem tail_mtl_congr (cnm cp : List Row → List ZRow → String → List Int)
    (soc : List Row → Bool → List Int) (obscon : String) (targets : Catalog)
    (zc1 zc2 : Option ZCat) (scnd : Option Catalog) (trim : Bool)
    (targets2 : Catalog) (isScnd : List Bool) (ne1 ne2 : Nat)
    (ztargets : ZCat) (zmatcher : List Nat) :
    (make_mtl_tail cnm cp soc obscon targets zc1 scnd trim
        targets2 isScnd ne1 ztargets zmatcher).mtl
      = (make_mtl_tail cnm cp soc obscon targets zc2 scnd trim
        targets2 isScnd ne2 ztargets zmatcher).mtl := rfl

/-- Claim C5: zcat rows whose TARGETID is absent from the (possibly
secondary-padded) target catalog are dropped before alignment; their
count is the reported warning count; the call completes without raising;
and the returned table is the same as if the caller had passed only the
matching rows. -/
theorem claim_C5_unknown_ids_dropped
    (cnm cp : List Row → List ZRow → String → List Int)
    (soc : List Row → Bool → List Int) (targets : Catalog) (obscon : String)
    (z : ZCat) (trim : Bool) (scnd : Option Catalog) :
    exOk (make_mtl cnm cp soc targets obscon (some z) trim scnd) = true ∧
    outNumExtra (make_mtl cnm cp soc targets obscon (some z) trim scnd)
      = z.rows.length - (z.rows.filter (zPred (paddedTids targets scnd))).length ∧
    outMtl (make_mtl cnm cp soc targets obscon (some z) trim scnd)
      = outMtl (make_mtl cnm cp soc targets obscon
          (some { z with rows := z.rows.filter (zPred (paddedTids targets scnd)) })
          trim scnd) := by
  unfold paddedTids
  simp only [make_mtl_some_eq]
  cases hE : exceptMapM
      (fun r => lookupLast (mkTids (renamed (mkTargets1 targets scnd).1)) (r "TARGETID"))
      (filteredZ (mkTids (mkTargets1 targets scnd).1) z).rows with
  | error e =>
    exfalso
    rcases make_mtl_some_ok cnm cp soc targets obscon z trim scnd with ⟨o, ho⟩
    rw [make_mtl_some_eq, hE, exceptMap_error] at ho
    cases ho
  | ok zm =>
    have hok2 : ∀ r ∈ z.rows.filter (zPred (mkTids (mkTargets1 targets scnd).1)),
        zPred (mkTids (mkTargets1 targets scnd).1) r = true :=
      fun r hr => (List.mem_filter.mp hr).2
    have hfzk : filteredZ (mkTids (mkTargets1 targets scnd).1)
        { z with rows := z.rows.filter (zPred (mkTids (mkTargets1 targets scnd).1)) }
        = { z with rows := z.rows.filter (zPred (mkTids (mkTargets1 targets scnd).1)) } := by
      unfold filteredZ numDropped
      rw [List.filter_eq_self.mpr hok2]
      simp
    by_cases hnd : numDropped (mkTids (mkTargets1 targets scnd).1) z > 0
    · have hfz : filteredZ (mkTids (mkTargets1 targets scnd).1) z
          = { z with rows := z.rows.filter (zPred (mkTids (mkTargets1 targets scnd).1)) } := by
        unfold filteredZ
        rw [if_pos hnd]
      rw [hfz] at hE
      rw [hfzk, hfz, hE, exceptMap_ok, exceptMap_ok]
      refine ⟨rfl, ?_, ?_⟩
      · rw [outNumExtra_ok, tail_numExtra]
        unfold numDropped
        rfl
      · rw [outMtl_ok, outMtl_ok]
        exact tail_mtl_congr cnm cp soc obscon targets _ _ scnd trim _ _ _ _ _ _
    · have hlenf : (z.rows.filter (zPred (mkTids (mkTargets1 targets scnd).1))).length
          = z.rows.length := by
        have hle := List.length_filter_le
          (zPred (mkTids (mkTargets1 targets scnd).1)) z.rows
        unfold numDropped at hnd
        omega
      have hrows : z.rows.filter (zPred (mkTids (mkTargets1 targets scnd).1)) = z.rows :=
        List.Sublist.eq_of_length (List.filter_sublist _) hlenf
      have hzk : ({ z with rows := z.rows.filter (zPred (mkTids (mkTargets1 targets scnd).1)) } : ZCat) = z := by
        rw [hrows]
      rw [hzk, hE, exceptMap_ok]
      refine ⟨rfl, ?_, rfl⟩
      rw [outNumExtra_ok, tail_numExtra]
      unfold numDropped
      rfl

/-! Lemmas about the priority-to-label dictionary. -/

theorem dictLookup_none_of_not_mem (d : List (Int × String)) (k : Int)
    (h : k ∉ d.map Prod.fst) : dictLookup d k = none := by
  induction d with
  | nil => rfl
  | cons q rest ih =>
    simp only [List.map_cons, List.mem_cons, not_or] at h
    simp only [dictLookup]
    rw [if_neg (fun he => h.1 he.symm)]
    exact ih h.2

theorem dictLookup_isSome_of_any (d : List (Int × String)) (k : Int)
    (h : d.any (fun q => decide (q.1 = k)) = true) : ∃ v, dictLookup d k = some v := by
  induction d with
  | nil => simp at h
  | cons q rest ih =>
    simp only [dictLookup]
    by_cases hq : q.1 = k
    · rw [if_pos hq]
      exact ⟨q.2, rfl⟩
    · rw [if_neg hq]
      simp only [List.any_cons, decide_eq_false hq, Bool.false_or] at h
      exact ih h

theorem dictLookup_append (d : List (Int × String)) (e : Int × String) (p : Int) :
    dictLookup (d ++ [e]) p =
      match dictLookup d p with
      | some v => some v
      | none => if e.1 = p then some e.2 else none := by
  induction d with
  | nil => rfl
  | cons q rest ih =>
    simp only [List.cons_append, dictLookup]
    by_cases hq : q.1 = p
    · rw [if_pos hq, if_pos hq]
    · rw [if_neg hq, if_neg hq]
      exact ih

theorem dictLookup_map_set (d : List (Int × String)) (k p : Int) (v : String) (h : p ≠ k) :
    dictLookup (d.map (fun q => if q.1 = k then (k, v) else q)) p = dictLookup d p := by
  induction d with
  | nil => rfl
  | cons q rest ih =>
    by_cases hq : q.1 = k
    · simp only [List.map_cons, if_pos hq, dictLookup]
      rw [if_neg (fun he => h he.symm),
        if_neg (show ¬q.1 = p from by rw [hq]; exact fun he => h he.symm)]
      exact ih
    · simp only [List.map_cons, if_neg hq, dictLookup]
      by_cases hp : q.1 = p
      · rw [if_pos hp, if_pos hp]
      · rw [if_neg hp, if_neg hp]
        exact ih

theorem dictLookup_map_set_self (d : List (Int × String)) (k : Int) (v : String)
    (h : d.any (fun q => decide (q.1 = k)) = true) :
    dictLookup (d.map (fun q => if q.1 = k then (k, v) else q)) k = some v := by
  induction d with
  | nil => simp at h
  | cons q rest ih =>
    by_cases hq : q.1 = k
    · simp only [List.map_cons, if_pos hq, dictLookup]
      simp
    · simp only [List.any_cons, decide_eq_false hq, Bool.false_or] at h
      simp only [List.map_cons, if_neg hq, dictLookup]
      exact ih h

theorem dictLookup_append_self (d : List (Int × String)) (k : Int) (v : String)
    (h : d.any (fun q => decide (q.1 = k)) = false) :
    dictLookup (d ++ [(k, v)]) k = some v := by
  rw [dictLookup_append, dictLookup_none_of_not_mem d k]
  · simp
  · intro hmem
    rcases List.mem_map.mp hmem with ⟨q, hq, hq2⟩
    have hcontra : d.any (fun q => decide (q.1 = k)) = true :=
      List.any_eq_true.mpr ⟨q, hq, decide_eq_true hq2⟩
    rw [h] at hcontra
    cases hcontra

theorem dictLookup_dictSet_ne (d : List (Int × String)) (k p : Int) (v : String)
    (h : p ≠ k) : dictLookup (dictSet d k v) p = dictLookup d p := by
  unfold dictSet
  by_cases hk : d.any (fun q => decide (q.1 = k)) = true
  · rw [if_pos hk]
    exact dictLookup_map_set d k p v h
  · rw [if_neg hk]
    rw [dictLookup_append]
    cases hd : dictLookup d p with
    | some w => rfl
    | none =>
      show (if k = p then some v else none) = none
      rw [if_neg (show ¬k = p from fun he => h he.symm)]

theorem dictLookup_dictSet_self (d : List (Int × String)) (k : Int) (v : String) :
    dictLookup (dictSet d k v) k = some v := by
  unfold dictSet
  by_cases hk : d.any (fun q => decide (q.1 = k)) = true
  · rw [if_pos hk]
    exact dictLookup_map_set_self d k v hk
  · rw [if_neg hk]
    exact dictLookup_append_self d k v (Bool.eq_false_iff.mpr hk)

theorem dictLookup_buildPrioPairs_foldl (p : Int) :
    ∀ (l : List (String × Int)) (acc : List (Int × String)),
      dictLookup
        (l.foldl (fun acc bp =>
          if acc.any (fun q => q.1 = bp.2) then acc else acc ++ [(bp.2, bp.1)]) acc) p
        = match dictLookup acc p with
          | some v => some v
          | none => (l.find? (fun bp => bp.2 = p)).map Prod.fst := by
  intro l
  induction l with
  | nil =>
    intro acc
    simp only [List.foldl_nil]
    cases dictLookup acc p <;> rfl
  | cons bp rest ih =>
    intro acc
    simp only [List.foldl_cons]
    by_cases hany : acc.any (fun q => decide (q.1 = bp.2)) = true
    · rw [if_pos hany, ih acc]
      cases hd : dictLookup acc p with
      | some v => rfl
      | none =>
        have hne : ¬bp.2 = p := by
          intro he
          rcases dictLookup_isSome_of_any acc bp.2 hany with ⟨w, hw⟩
          rw [he, hd] at hw
          cases hw
        simp [List.find?_cons, decide_eq_false hne]
    · rw [if_neg hany, ih (acc ++ [(bp.2, bp.1)]), dictLookup_append]
      cases hd : dictLookup acc p with
      | some v => rfl
      | none =>
        by_cases hbp : bp.2 = p
        · simp [List.find?_cons, hbp]
        · simp [List.find?_cons, hbp]

theorem buildPrioPairs_foldl_keys_nodup :
    ∀ (l : List (String × Int)) (acc : List (Int × String)),
      (acc.map Prod.fst).Nodup →
      ((l.foldl (fun acc bp =>
        if acc.any (fun q => q.1 = bp.2) then acc else acc ++ [(bp.2, bp.1)]) acc).map
        Prod.fst).Nodup := by
  intro l
  induction l with
  | nil => intro acc h; exact h
  | cons bp rest ih =>
    intro acc h
    simp only [List.foldl_cons]
    by_cases hany : acc.any (fun q => decide (q.1 = bp.2)) = true
    · rw [if_pos hany]
      exact ih acc h
    · rw [if_neg hany]
      refine ih _ ?_
      rw [List.map_append, List.nodup_append]
      refine ⟨h, by simp, ?_⟩
      intro a ha hb
      simp only [List.map_cons, List.map_nil, List.mem_singleton] at hb
      subst hb
      rcases List.mem_map.mp ha with ⟨q, hq, hq2⟩
      exact hany (List.any_eq_true.mpr ⟨q, hq, decide_eq_true hq2⟩)

theorem dictSet_keys_nodup (d : List (Int × String)) (k : Int) (v : String)
    (h : (d.map Prod.fst).Nodup) : ((dictSet d k v).map Prod.fst).Nodup := by
  unfold dictSet
  by_cases hk : d.any (fun q => decide (q.1 = k)) = true
  · rw [if_pos hk]
    have heq : (d.map (fun q => if q.1 = k then (k, v) else q)).map Prod.fst
        = d.map Prod.fst := by
      rw [List.map_map]
      refine List.map_congr_left ?_
      intro q hq
      by_cases hqk : q.1 = k
      · simp [Function.comp, hqk]
      · simp [Function.comp, hqk]
    rw [heq]
    exact h
  · rw [if_neg hk]
    rw [List.map_append, List.nodup_append]
    refine ⟨h, by simp, ?_⟩
    intro a ha hb
    simp only [List.map_cons, List.map_nil, List.mem_singleton] at hb
    subst hb
    rcases List.mem_map.mp ha with ⟨q, hq, hq2⟩
    exact hk (List.any_eq_true.mpr ⟨q, hq, decide_eq_true hq2⟩)

theorem priodict_keys_nodup (Mxs : List BitMask) :
    ((priodict Mxs).map Prod.fst).Nodup :=
  dictSet_keys_nodup _ 0 _
    (buildPrioPairs_foldl_keys_nodup (enumBits Mxs) [] (by simp))

theorem assignStates_getD (prioInit : List Int) (j : Nat) (hj : j < prioInit.length) :
    ∀ (d : List (Int × String)) (states : List String),
      states.length = prioInit.length →
      (d.map Prod.fst).Nodup →
      (d.foldl (fun states pv =>
          List.zipWith (fun st p => if p = pv.1 then pv.2 else st) states prioInit)
        states).getD j ""
        = (dictLookup d (prioInit.getD j 0)).getD (states.getD j "") := by
  intro d
  induction d with
  | nil => intro states _ _; rfl
  | cons pv rest ih =>
    intro states hlen hnd
    simp only [List.foldl_cons]
    simp only [List.map_cons, List.nodup_cons] at hnd
    rw [ih (List.zipWith (fun st p => if p = pv.1 then pv.2 else st) states prioInit)
      (by rw [List.length_zipWith, hlen, Nat.min_self]) hnd.2]
    have hstep : (List.zipWith (fun st p => if p = pv.1 then pv.2 else st) states
        prioInit).getD j "" = if prioInit.getD j 0 = pv.1 then pv.2 else states.getD j "" :=
      getD_zipWith (fun st p => if p = pv.1 then pv.2 else st) states prioInit j "" 0 ""
        (by omega) hj
    rw [hstep]
    simp only [dictLookup]
    by_cases hp : prioInit.getD j 0 = pv.1
    · rw [if_pos hp, if_pos hp.symm,
        dictLookup_none_of_not_mem rest (prioInit.getD j 0) (by rw [hp]; exact hnd.1)]
      rfl
    · rw [if_neg hp, if_neg (fun he => hp he.symm)]

/-- Claim C7 (code defect: the construction never runs).  Every call of
make_ledger_in_hp raises a NameError at mtl.py line 259, before the
priority-to-label construction of lines 263-284, so no row is ever
labeled.  The construction as written (translated by priodict and
assignStates, applied to unreachable code) has exactly the claimed
properties: for each distinct UNOBS priority the first bitname in the
canonical enumeration order wins (later duplicates are ignored);
priority 0 always maps to CALIBRATION; and each row would be labeled by
matching its PRIORITY_INIT against this table, keeping the NOSTATE
placeholder when its PRIORITY_INIT appears in no entry. -/
theorem claim_C7_state_classifier
    (cnm cp : List Row → List ZRow → String → List Int)
    (soc : List Row → Bool → List Int) (Mxs : List BitMask) (ts : String)
    (targs : Catalog) (obscon : String) (p : Int) (j : Nat)
    (hp : p ≠ 0)
    (hj : j < (buildLedgerTable cnm cp soc Mxs ts targs obscon).base.rows.length) :
    make_ledger_in_hp cnm cp soc targs obscon
        = Except.error "NameError: name datetime is not defined" ∧
      dictLookup (priodict Mxs) p
        = ((enumBits Mxs).find? (fun bp => bp.2 = p)).map Prod.fst ∧
      dictLookup (priodict Mxs) 0 = some "CALIBRATION" ∧
      (buildLedgerTable cnm cp soc Mxs ts targs obscon).targetState.getD j ""
        = (dictLookup (priodict Mxs)
            ((getCol (buildLedgerTable cnm cp soc Mxs ts targs obscon).base
              "PRIORITY_INIT").getD j 0)).getD "NOSTATE" := by
  refine ⟨rfl, ?_, dictLookup_dictSet_self _ 0 _, ?_⟩
  · unfold priodict
    rw [dictLookup_dictSet_ne _ _ _ _ hp]
    unfold buildPrioPairs
    rw [dictLookup_buildPrioPairs_foldl p (enumBits Mxs) []]
    rfl
  · rw [buildLedgerTable_targetState]
    unfold assignStates
    rw [assignStates_getD (getCol (buildLedgerTable cnm cp soc Mxs ts targs obscon).base
        "PRIORITY_INIT") j (by rw [getCol_length]; exact hj) (priodict Mxs)
      (List.replicate (getCol (buildLedgerTable cnm cp soc Mxs ts targs obscon).base
        "PRIORITY_INIT").length "NOSTATE") (by simp) (priodict_keys_nodup Mxs)]
    rw [getD_replicate _ _ _ _ (by rw [getCol_length]; exact hj)]

/-- A flavor group in which two bitnames share the UNOBS priority 2000. -/
def MxDemo : BitMask :=
  { names := ["BIT_A", "BIT_B", "BIT_C"],
    unobs := fun b => if b = "BIT_A" then some 2000
      else if b = "BIT_B" then some 2000
      else if b = "BIT_C" then some 100 else none }

/-- Witness for C7: a concrete call raises the NameError; and with two
bitnames sharing priority 2000, lookups use the first (BIT_A), 0 maps to
CALIBRATION, and row labels come from PRIORITY_INIT. -/
theorem claim_C7_state_classifier_witness :
    make_ledger_in_hp cnm0 cpHi soc0 T0 "DARK"
        = Except.error "NameError: name datetime is not defined" ∧
      dictLookup (priodict [MxDemo]) 2000
        = ((enumBits [MxDemo]).find? (fun bp => bp.2 = 2000)).map Prod.fst ∧
      dictLookup (priodict [MxDemo]) 0 = some "CALIBRATION" ∧
      (buildLedgerTable cnm0 cpHi soc0 [MxDemo] "2021-01-01T00:00:00"
        T0 "DARK").targetState.getD 0 ""
        = (dictLookup (priodict [MxDemo])
            ((getCol (buildLedgerTable cnm0 cpHi soc0 [MxDemo] "2021-01-01T00:00:00"
              T0 "DARK").base "PRIORITY_INIT").getD 0 0)).getD "NOSTATE" :=
  claim_C7_state_classifier cnm0 cpHi soc0 [MxDemo] "2021-01-01T00:00:00" T0 "DARK" 2000 0
    (by decide) (by decide)

/-! Lemmas for the in-place-mutation analysis of `make_mtl` (claim C9). -/

theorem mkTargets1_none (targets : Catalog) : mkTargets1 targets none = (targets, []) := rfl

theorem renameCol_cols_mem (old new : String) (t : Catalog)
    (hold : old ∈ t.cols) (hne : old ≠ new) :
    old ∉ (renameCol old new t).cols ∧ new ∈ (renameCol old new t).cols := by
  unfold renameCol
  rw [if_pos hold]
  constructor
  · intro hmem
    rcases List.mem_map.mp hmem with ⟨c, hc, hceq⟩
    by_cases hcp : c = old
    · rw [if_pos hcp] at hceq
      exact hne hceq.symm
    · rw [if_neg hcp] at hceq
      exact hcp hceq
  · exact List.mem_map.mpr ⟨old, hold, by rw [if_pos rfl]⟩

theorem renameCol_mem_other (old new c : String) (t : Catalog)
    (hc : c ∈ t.cols) (hcold : c ≠ old) : c ∈ (renameCol old new t).cols := by
  unfold renameCol
  by_cases h : old ∈ t.cols
  · rw [if_pos h]
    exact List.mem_map.mpr ⟨c, hc, by rw [if_neg hcold]⟩
  · rw [if_neg h]
    exact hc

theorem renamed_priority_cols (t : Catalog) (h : "PRIORITY" ∈ t.cols) :
    "PRIORITY" ∉ (renamed t).cols ∧ "PRIORITY_INIT" ∈ (renamed t).cols := by
  unfold renamed
  exact renameCol_cols_mem "PRIORITY" "PRIORITY_INIT" _
    (renameCol_mem_other "NUMOBS" "NUMOBS_INIT" "PRIORITY" t h (by decide)) (by decide)

theorem zeroTerminal_cols (priority : List Int) (z : ZCat) :
    (zeroTerminal priority z).cols = z.cols := rfl

theorem fillMasked_cols (z : ZCat) : (fillMasked z).cols = z.cols := by
  unfold fillMasked
  by_cases h : z.masked
  · rw [if_pos h]
  · rw [if_neg h]

theorem filteredZ_cols (tids1 : List Int) (z : ZCat) : (filteredZ tids1 z).cols = z.cols := by
  unfold filteredZ
  by_cases h : numDropped tids1 z > 0
  · rw [if_pos h]
  · rw [if_neg h]

theorem tail_postTargets_none (cnm cp : List Row → List ZRow → String → List Int)
    (soc : List Row → Bool → List Int) (obscon : String)
    (targets : Catalog) (zcat : Option ZCat) (trim : Bool)
    (targets2 : Catalog) (isScnd : List Bool) (numExtra : Nat)
    (ztargets : ZCat) (zmatcher : List Nat) :
    (make_mtl_tail cnm cp soc obscon targets zcat none trim
      targets2 isScnd numExtra ztargets zmatcher).postTargets = targets2 := rfl

theorem tail_postTargets_some (cnm cp : List Row → List ZRow → String → List Int)
    (soc : List Row → Bool → List Int) (obscon : String)
    (targets : Catalog) (zcat : Option ZCat) (sc : Catalog) (trim : Bool)
    (targets2 : Catalog) (isScnd : List Bool) (numExtra : Nat)
    (ztargets : ZCat) (zmatcher : List Nat) :
    (make_mtl_tail cnm cp soc obscon targets zcat (some sc) trim
      targets2 isScnd numExtra ztargets zmatcher).postTargets = targets := rfl

theorem tail_postZcat_none (cnm cp : List Row → List ZRow → String → List Int)
    (soc : List Row → Bool → List Int) (obscon : String)
    (targets : Catalog) (scnd : Option Catalog) (trim : Bool)
    (targets2 : Catalog) (isScnd : List Bool) (numExtra : Nat)
    (ztargets : ZCat) (zmatcher : List Nat) :
    (make_mtl_tail cnm cp soc obscon targets none scnd trim
      targets2 isScnd numExtra ztargets zmatcher).postZcat = none := rfl

theorem tail_postZcat_some (cnm cp : List Row → List ZRow → String → List Int)
    (soc : List Row → Bool → List Int) (obscon : String)
    (targets : Catalog) (z : ZCat) (scnd : Option Catalog) (trim : Bool)
    (targets2 : Catalog) (isScnd : List Bool) (numExtra : Nat)
    (ztargets : ZCat) (zmatcher : List Nat) :
    (make_mtl_tail cnm cp soc obscon targets (some z) scnd trim
      targets2 isScnd numExtra ztargets zmatcher).postZcat =
      some (if numExtra > 0 then z
        else zeroTerminal
          (cp (zmatcher.map (fun i => targets2.rows.getD i zeroRow))
            (setColZ ztargets "NUMOBS_MORE"
              (cnm (zmatcher.map (fun i => targets2.rows.getD i zeroRow))
                ztargets.rows obscon)).rows obscon)
          (setColZ ztargets "NUMOBS_MORE"
            (cnm (zmatcher.map (fun i => targets2.rows.getD i zeroRow))
              ztargets.rows obscon))) := rfl

theorem make_mtl_ok_form (cnm cp : List Row → List ZRow → String → List Int)
    (soc : List Row → Bool → List Int) (targets : Catalog) (obscon : String)
    (zcat : Option ZCat) (trim : Bool) (scnd : Option Catalog) (o : MtlOutcome)
    (ho : make_mtl cnm cp soc targets obscon zcat trim scnd = Except.ok o) :
    ∃ ne zt zm, o = make_mtl_tail cnm cp soc obscon targets zcat scnd trim
        (renamed (mkTargets1 targets scnd).1) (mkTargets1 targets scnd).2 ne zt zm ∧
      (∀ z, zcat = some z →
        ne = numDropped (mkTids (mkTargets1 targets scnd).1) z ∧
        zt = fillMasked (filteredZ (mkTids (mkTargets1 targets scnd).1) z)) := by
  cases zcat with
  | none =>
    rw [make_mtl_none_eq] at ho
    cases ho
    exact ⟨0, _, _, rfl, fun z hz => by cases hz⟩
  | some z =>
    rw [make_mtl_some_eq] at ho
    cases hE : exceptMapM
        (fun r => lookupLast (mkTids (renamed (mkTargets1 targets scnd).1)) (r "TARGETID"))
        (filteredZ (mkTids (mkTargets1 targets scnd).1) z).rows with
    | error e =>
      rw [hE, exceptMap_error] at ho
      cases ho
    | ok zm =>
      rw [hE, exceptMap_ok] at ho
      cases ho
      exact ⟨_, _, zm, rfl, fun z2 hz2 => by cases hz2; exact ⟨rfl, rfl⟩⟩

/-- Claim C9, amended: make_mtl is not pure over its in-memory inputs.
It leaves the caller's targets unchanged when targets carries no legacy
NUMOBS/PRIORITY columns, or when a secondary catalog was passed (the
concatenation rebinds the local variable before the rename); but with a
legacy PRIORITY column and no secondary catalog the rename happens in
place on the input.  It leaves a zcat with dropped rows unchanged (the
boolean selection makes a copy), but a fully-matching zcat is mutated in
place: masked fields are filled and a NUMOBS_MORE column is added, so
the caller's object differs after the call. -/
theorem claim_C9_in_place_mutation_amended
    (cnm cp : List Row → List ZRow → String → List Int)
    (soc : List Row → Bool → List Int) (targets : Catalog) (obscon : String)
    (zcat : Option ZCat) (trim : Bool) (scnd : Option Catalog)
    (hok : exOk (make_mtl cnm cp soc targets obscon zcat trim scnd) = true) :
    ((scnd = none ∧ "NUMOBS" ∉ targets.cols ∧ "PRIORITY" ∉ targets.cols) →
        outPostTargets (make_mtl cnm cp soc targets obscon zcat trim scnd) = targets) ∧
      ((scnd = none ∧ "PRIORITY" ∈ targets.cols) →
        ("PRIORITY" ∉ (outPostTargets (make_mtl cnm cp soc targets obscon zcat trim scnd)).cols ∧
         "PRIORITY_INIT" ∈ (outPostTargets (make_mtl cnm cp soc targets obscon zcat trim scnd)).cols)) ∧
      (scnd.isSome = true →
        outPostTargets (make_mtl cnm cp soc targets obscon zcat trim scnd) = targets) ∧
      (zcat = none →
        outPostZcat (make_mtl cnm cp soc targets obscon zcat trim scnd) = none) ∧
      (∀ z, zcat = some z →
        0 < outNumExtra (make_mtl cnm cp soc targets obscon zcat trim scnd) →
        outPostZcat (make_mtl cnm cp soc targets obscon zcat trim scnd) = some z) ∧
      (∀ z, zcat = some z →
        outNumExtra (make_mtl cnm cp soc targets obscon zcat trim scnd) = 0 →
        "NUMOBS_MORE" ∉ z.cols →
        outPostZcat (make_mtl cnm cp soc targets obscon zcat trim scnd) ≠ some z) := by
  cases he : make_mtl cnm cp soc targets obscon zcat trim scnd with
  | error err =>
    rw [he, exOk_error] at hok
    cases hok
  | ok o =>
    rcases make_mtl_ok_form cnm cp soc targets obscon zcat trim scnd o he
      with ⟨ne, zt, zm, rfl, hsome⟩
    refine ⟨?_, ?_, ?_, ?_, ?_, ?_⟩
    · rintro ⟨rfl, h1, h2⟩
      rw [outPostTargets_ok, tail_postTargets_none, mkTargets1_none]
      exact renamed_id targets h1 h2
    · rintro ⟨rfl, h1⟩
      rw [outPostTargets_ok, tail_postTargets_none, mkTargets1_none]
      exact renamed_priority_cols targets h1
    · intro hs
      cases scnd with
      | none => cases hs
      | some sc =>
        rw [outPostTargets_ok, tail_postTargets_some]
    · rintro rfl
      rw [outPostZcat_ok, tail_postZcat_none]
    · intro z hz hpos
      subst hz
      rw [outNumExtra_ok, tail_numExtra] at hpos
      rw [outPostZcat_ok, tail_postZcat_some, if_pos hpos]
    · intro z hz h0 hnm heq
      subst hz
      rw [outNumExtra_ok, tail_numExtra] at h0
      rw [outPostZcat_ok, tail_postZcat_some, if_neg (by omega)] at heq
      rcases hsome z rfl with ⟨hne, hzt⟩
      have hcols := congrArg ZCat.cols (Option.some.inj heq)
      rw [zeroTerminal_cols] at hcols
      have hztc : zt.cols = z.cols := by
        rw [hzt, fillMasked_cols, filteredZ_cols]
      have hsc : (setColZ zt "NUMOBS_MORE"
          (cnm (zm.map (fun i =>
            (renamed (mkTargets1 targets scnd).1).rows.getD i zeroRow))
            zt.rows obscon)).cols = zt.cols ++ ["NUMOBS_MORE"] := by
        unfold setColZ
        rw [if_neg (by rw [hztc]; exact hnm)]
      rw [hsc, hztc] at hcols
      have hlen := congrArg List.length hcols
      simp at hlen

/-- A target catalog carrying legacy NUMOBS and PRIORITY column names. -/
def T9 : Catalog :=
  { cols := ["TARGETID", "DESI_TARGET", "NUMOBS", "PRIORITY"],
    rows := [fun c => if c = "TARGETID" then 1 else if c = "DESI_TARGET" then 4
      else if c = "NUMOBS" then 1 else if c = "PRIORITY" then 100 else 0] }

/-- A masked zcat whose single row matches TARGETID 1 and has a masked
NUMOBS entry. -/
def Z9 : ZCat :=
  { cols := ["TARGETID", "NUMOBS", "Z", "ZWARN"], masked := true,
    rows := [fun c => if c = "TARGETID" then some 1 else if c = "NUMOBS" then none
      else if c = "Z" then some 5 else if c = "ZWARN" then some 0 else none] }

/-- Counterexample to claim C9 as stated: after a concrete make_mtl
call, the caller's targets object has had its legacy PRIORITY column
renamed in place, and the caller's zcat object has had its masked NUMOBS
entry filled in place. -/
theorem claim_C9_in_place_mutation_counterexample :
    ("PRIORITY" ∈ T9.cols ∧
      "PRIORITY" ∉
        (outPostTargets (make_mtl cnm0 cp0 soc0 T9 "DARK" (some Z9) false none)).cols ∧
      "PRIORITY_INIT" ∈
        (outPostTargets (make_mtl cnm0 cp0 soc0 T9 "DARK" (some Z9) false none)).cols) ∧
    ((Z9.rows.getD 0 noneZRow) "NUMOBS" = none ∧
      (((outPostZcat (make_mtl cnm0 cp0 soc0 T9 "DARK" (some Z9) false none)).getD
        emptyZCat).rows.getD 0 noneZRow) "NUMOBS" = some 0) := by
  exact ⟨⟨by decide, by decide, by decide⟩, ⟨by decide, by decide⟩⟩

/-- Witness for the amended C9: a legacy-free targets object is returned
unchanged, and a fully-matching zcat object is not the one the caller
passed in. -/
theorem claim_C9_in_place_mutation_amended_witness :
    outPostTargets (make_mtl cnm0 cp0 soc0 T0 "DARK" none false none) = T0 ∧
      outPostZcat (make_mtl cnm0 cp0 soc0 T9 "DARK" (some Z9) false none) ≠ some Z9 := by
  constructor
  · exact (claim_C9_in_place_mutation_amended cnm0 cp0 soc0 T0 "DARK" none false none
      (by decide)).1 ⟨rfl, by decide, by decide⟩
  · exact (claim_C9_in_place_mutation_amended cnm0 cp0 soc0 T9 "DARK" (some Z9) false none
      (by decide)).2.2.2.2.2 Z9 rfl (by decide) (by decide)
